import Mathlib

/-!
Verification of the play-by-play classification and season-aggregation engine
of `app.py` (spray-chart season statistics application).

The Python source is shallowly embedded: Python strings are Lean `String`
(a list of characters), Python dicts keyed by stat names are association
lists `List (String × Nat)` in insertion order, Python `KeyError` on
`d[k] += 1` for a missing key is modelled by `Option`/failure propagation,
and the regular expressions of the source (word-boundary literal phrase
patterns) are embedded by a small executable pattern interpreter.

Definitions keep the names of the corresponding Python functions.
-/

namespace SprayApp

/-! ## Python string primitives -/

/-- The whitespace test used for Python `strip()` / `\s`. -/
def isWs (c : Char) : Bool := c.isWhitespace

/-- Drop leading and trailing characters satisfying `p` (Python `str.strip(chars)`). -/
def trimBy (p : Char → Bool) (l : List Char) : List Char :=
  ((l.dropWhile p).reverse.dropWhile p).reverse

/-- Python `s.strip()`. -/
def pyStrip (s : String) : String := ⟨trimBy isWs s.data⟩

/-- Python `s.strip('"')`. -/
def pyStripQuotes (s : String) : String := ⟨trimBy (fun c => c = '"') s.data⟩

/-- Python `s.strip("()")`. -/
def pyStripParens (s : String) : String := ⟨trimBy (fun c => c = '(' || c = ')') s.data⟩

/-- Python `s.lower()` (ASCII case folding, as used by the source). -/
def pyLower (s : String) : String := ⟨s.data.map Char.toLower⟩

/-- Python `s.upper()`. -/
def pyUpper (s : String) : String := ⟨s.data.map Char.toUpper⟩

/-- Python `s.replace(",", " ")`. -/
def pyReplComma (s : String) : String := ⟨s.data.map (fun c => if c = ',' then ' ' else c)⟩

/-- Collapse every maximal run of whitespace into a single space
(`re.sub(r"\s+", " ", s)`). -/
def squashWs : List Char → List Char
  | [] => []
  | [c] => if isWs c then [' '] else [c]
  | c1 :: c2 :: rest =>
    if isWs c1 && isWs c2 then squashWs (c2 :: rest)
    else (if isWs c1 then ' ' else c1) :: squashWs (c2 :: rest)

/-- `re.sub(r"\s+", " ", s).strip()`. -/
def pyCollapseStrip (s : String) : String := ⟨trimBy isWs (squashWs s.data)⟩

/-- Python `s.startswith(pre)`. -/
def pyStartsWith (s pre : String) : Bool := pre.data.isPrefixOf s.data

/-- Python `s.endswith(suf)`. -/
def pyEndsWith (s suf : String) : Bool := suf.data.isSuffixOf s.data

/-- Substring membership on character lists (Python `pat in s`). -/
def containsSubList (hay pat : List Char) : Bool :=
  if pat.isPrefixOf hay then true
  else
    match hay with
    | [] => false
    | _ :: t => containsSubList t pat

/-- Python `pat in s`. -/
def strContains (s pat : String) : Bool := containsSubList s.data pat.data

/-- Lowest index at which `pat` occurs in the character list, counting from `i`
(Python `s.find(pat)`, with `none` for `-1`). -/
def findSubIdx (hay pat : List Char) (i : Nat) : Option Nat :=
  if pat.isPrefixOf hay then some i
  else
    match hay with
    | [] => none
    | _ :: t => findSubIdx t pat (i + 1)

/-- Python `s.find(pat)` (`none` stands for `-1`). -/
def strFind (s pat : String) : Option Nat := findSubIdx s.data pat.data 0

/-- Python `s.split()` — split on whitespace runs, dropping empty fields. -/
def splitWsAux : List Char → List Char → List String
  | [], acc => if acc.isEmpty then [] else [⟨acc.reverse⟩]
  | c :: rest, acc =>
    if isWs c then
      if acc.isEmpty then splitWsAux rest [] else ⟨acc.reverse⟩ :: splitWsAux rest []
    else splitWsAux rest (c :: acc)

def pySplitWs (s : String) : List String := splitWsAux s.data []

/-- Python `s.split(sep)` for a one-character separator: keeps empty fields,
always returns a nonempty list. -/
def splitOnCharAux (sep : Char) : List Char → List Char → List String
  | [], acc => [⟨acc.reverse⟩]
  | c :: rest, acc =>
    if c = sep then ⟨acc.reverse⟩ :: splitOnCharAux sep rest []
    else splitOnCharAux sep rest (c :: acc)

def pySplitChar (sep : Char) (s : String) : List String := splitOnCharAux sep s.data []

/-- Consume characters up to and including the first `')'`. -/
def dropParen : List Char → Option (List Char)
  | [] => none
  | c :: rest => if c = ')' then some rest else dropParen rest

/-- `re.sub(r"\([^)]*\)", "", s)` on character lists: remove every
parenthesised group up to the first closing parenthesis.  Structural
recursion on a fuel bound (every step consumes at least one character, and
`dropParen` only shortens the list, so `length + 1` fuel always suffices;
the fuel-exhausted arm is unreachable). -/
def removeParensFuel : Nat → List Char → List Char
  | 0, l => l
  | _ + 1, [] => []
  | fuel + 1, c :: rest =>
    if c = '(' then
      match dropParen rest with
      | some rest2 => removeParensFuel fuel rest2
      | none => c :: removeParensFuel fuel rest
    else c :: removeParensFuel fuel rest

def removeParens (l : List Char) : List Char := removeParensFuel (l.length + 1) l

/-! ## Engine constants (`ENGINE CONSTANTS` section of app.py) -/

def LOCATION_KEYS : List String := ["LF", "CF", "RF", "3B", "SS", "2B", "1B", "P"]

def BALLTYPE_KEYS : List String := ["GB", "FB"]

def COMBO_LOCS : List String :=
  LOCATION_KEYS.filter (fun loc => !(["BUNT", "UNKNOWN"].contains loc))

def COMBO_KEYS : List String :=
  COMBO_LOCS.map (fun loc => "GB-" ++ loc) ++ COMBO_LOCS.map (fun loc => "FB-" ++ loc)

def RUN_KEYS : List String := ["SB", "SB-2B", "SB-3B", "CS", "CS-2B", "CS-3B"]

def GP_KEY : String := "GP"

def BUNTS_KEY : String := "Bunts"

/-- All stat keys, in the construction order of `empty_stat_dict`. -/
def ALL_KEYS : List String :=
  LOCATION_KEYS ++ BALLTYPE_KEYS ++ COMBO_KEYS ++ RUN_KEYS ++ [GP_KEY, BUNTS_KEY]

/-! ## Stat dictionaries

A Python dict from stat key to count, in insertion order.  Reading a missing
key (`d[k]`) is a `KeyError`, modelled as `none`; `d.get(k, 0)` is `dgetD`. -/

abbrev StatDict : Type := List (String × Nat)

def dget (d : StatDict) (k : String) : Option Nat :=
  (d.find? (fun kv => kv.1 == k)).map (fun kv => kv.2)

def dgetD (d : StatDict) (k : String) : Nat := (dget d k).getD 0

/-- `d[k] = v` (overwrites in place, appends when the key is new). -/
def dset : StatDict → String → Nat → StatDict
  | [], k, v => [(k, v)]
  | kv :: rest, k, v => if kv.1 == k then (k, v) :: rest else kv :: dset rest k v

/-- `d[k] += 1`: fails (KeyError) when `k` is missing. -/
def dincr (d : StatDict) (k : String) : Option StatDict :=
  match dget d k with
  | none => none
  | some v => some (dset d k (v + 1))

/-- `d.setdefault(k, v)`. -/
def dsetdefault (d : StatDict) (k : String) (v : Nat) : StatDict :=
  match dget d k with
  | some _ => d
  | none => d ++ [(k, v)]

/-- `empty_stat_dict()` of app.py: every recognized key, value 0, in order. -/
def empty_stat_dict : StatDict := ALL_KEYS.map (fun k => (k, 0))

/-- `ensure_all_keys(d)` of app.py. -/
def ensure_all_keys (d : StatDict) : StatDict :=
  ALL_KEYS.foldl (fun d k => dsetdefault d k 0) d

/-! ## Per-player dictionaries (`game_players` / `season_players`) -/

abbrev PlayerDict : Type := List (String × StatDict)

def pget (ps : PlayerDict) (p : String) : Option StatDict :=
  (ps.find? (fun kv => kv.1 == p)).map (fun kv => kv.2)

def pset : PlayerDict → String → StatDict → PlayerDict
  | [], p, d => [(p, d)]
  | kv :: rest, p, d => if kv.1 == p then (p, d) :: rest else kv :: pset rest p d

/-- `ps[p][k] += 1`: KeyError when the player or the key is missing. -/
def pincr (ps : PlayerDict) (p : String) (k : String) : Option PlayerDict :=
  match pget ps p with
  | none => none
  | some d =>
    match dincr d k with
    | none => none
    | some d2 => some (pset ps p d2)

/-- The count stored for player `p` at key `k` (0 when absent). -/
def playerStat (ps : PlayerDict) (p : String) (k : String) : Nat :=
  dgetD ((pget ps p).getD []) k

/-! ## PBP normalization and game hash -/

/-- `normalize_pbp` of app.py. -/
def normalize_pbp (text : String) : String :=
  String.intercalate "\n"
    ((((pySplitChar '\n' (pyStrip text))).map pyStrip).filter (fun ln => ln ≠ ""))

/-- The SHA-1 hex digest of app.py's `game_key_from_pbp` is abstracted as the
identity embedding of the hashed text: the engine uses the digest only as an
equality key (identical input ⇒ identical key), which the identity preserves;
collision freedom of SHA-1 is never assumed by any theorem below. -/
def sha1hex (s : String) : String := s

/-- `game_key_from_pbp` of app.py. -/
def game_key_from_pbp (team_key pbp_text : String) : String :=
  "pbp_sha1_" ++ sha1hex (team_key ++ "||" ++ normalize_pbp pbp_text)

/-! ## Word-boundary phrase patterns (the `re` patterns of the engine)

Every regex of the classifier library is of the form `\b P \b` where `P` is
built from literals, alternation, option, a single whitespace class and a
one-character class.  `matchPat` returns the list of possible remainders
(backtracking), `reSearch` scans all start positions left to right. -/

inductive Pat where
  | str : String → Pat
  | seq : Pat → Pat → Pat
  | alt : Pat → Pat → Pat
  | opt : Pat → Pat
  | ws1 : Pat
  | oneOf : String → Pat

def matchPat : Pat → List Char → List (List Char)
  | .str s, cs => if s.data.isPrefixOf cs then [cs.drop s.data.length] else []
  | .seq p q, cs => (matchPat p cs).flatMap (fun r => matchPat q r)
  | .alt p q, cs => matchPat p cs ++ matchPat q cs
  | .opt p, cs => matchPat p cs ++ [cs]
  | .ws1, cs =>
    match cs with
    | c :: r => if isWs c then [r] else []
    | [] => []
  | .oneOf s, cs =>
    match cs with
    | c :: r => if s.data.contains c then [r] else []
    | [] => []

def isWordChar (c : Char) : Bool := c.isAlphanum || c = '_'

def boundaryBefore : Option Char → Bool
  | none => true
  | some c => !isWordChar c

def boundaryAfter : List Char → Bool
  | [] => true
  | c :: _ => !isWordChar c

def wbSearchAux (p : Pat) : Option Char → List Char → Bool
  | prev, cs =>
    (boundaryBefore prev && (matchPat p cs).any boundaryAfter) ||
      match cs with
      | [] => false
      | c :: rest => wbSearchAux p (some c) rest

/-- `rx.search(s) is not None` for a `\b P \b` pattern. -/
def reSearch (p : Pat) (s : String) : Bool := wbSearchAux p none s.data

/-! ## The batted-ball type regex library -/

def GB_REGEX : List Pat := [
  .seq (.str "ground") (.opt (.alt (.str "s") (.str "ed"))),
  .seq (.str "ground") (.seq (.opt (.str " ")) (.str "ball")),
  .str "grounder",
  .str "chopper",
  .str "bouncer",
  .str "dribbler",
  .str "roller",
  .str "tapper",
  .seq (.str "slow") (.seq (.oneOf "- ") (.str "roller"))]

def LD_REGEX : List Pat := [
  .str "line drive",
  .seq (.str "line") (.opt (.str "s")),
  .str "lined",
  .str "on a line"]

def FB_REGEX : List Pat := [
  .seq (.str "fly") (.opt (.seq (.opt .ws1) (.str "ball"))),
  .str "flies",
  .str "flied",
  .seq (.str "pop") (.opt (.str "s")),
  .seq (.str "pop") (.seq (.opt (.oneOf "- ")) (.str "up")),
  .str "popup",
  .str "towering fly",
  .str "high fly",
  .str "deep fly",
  .str "shallow fly",
  .str "infield fly",
  .str "foul pop",
  .str "blooper",
  .str "flare",
  .str "floater",
  .str "lofted"]

def SACFLY_REGEX : List Pat := [
  .seq (.str "sac") (.seq (.opt (.str "rifice")) (.str " fly"))]

/-- `classify_ball_type` of app.py (the diagnostic rationale strings are
dropped; they are never consulted by the engine). -/
def classify_ball_type (line_lower : String) : Option String × Nat :=
  if strContains line_lower "bunt" then (none, 3)
  else if SACFLY_REGEX.any (fun rx => reSearch rx line_lower) then (some "FB", 3)
  else if LD_REGEX.any (fun rx => reSearch rx line_lower) then (some "FB", 2)
  else if GB_REGEX.any (fun rx => reSearch rx line_lower) then (some "GB", 2)
  else if FB_REGEX.any (fun rx => reSearch rx line_lower) then (some "FB", 2)
  else (none, 0)

/-! ## Location phrase libraries -/

def LF_PATTERNS : List String := [
  "left fielder ", "to left fielder", "to left field", "to left", "into left field",
  "down the left field line", "down the left-field line",
  "down the lf line", "down the left line", "toward left field",
  "into shallow left", "into deep left", "into left-center", "into left center",
  "in front of left fielder"]

def CF_PATTERNS : List String := [
  "center fielder ", "to center fielder", "to center field", "to center", "into center field",
  "into deep center", "into shallow center",
  "into left-center field", "into left center field",
  "into right-center field", "into right center field",
  "up the middle into center", "up the middle to center"]

def RF_PATTERNS : List String := [
  "right fielder ", "to right fielder", "to right field", "to right", "into right field",
  "down the right field line", "down the right-field line",
  "down the rf line", "toward right field",
  "into shallow right", "into deep right",
  "into right-center", "into right center",
  "in front of right fielder"]

def SS_PATTERNS : List String := [
  "shortstop ", "to shortstop", "to the shortstop", "to ss",
  "fielded by the shortstop", "fielded by shortstop",
  "shortstop fields", "shortstop to", "shortstop throws to",
  "shortstop makes the play", "at shortstop"]

def SECOND_B_PATTERNS : List String := [
  "second baseman ", "to second baseman", "to the second baseman", "to 2nd baseman",
  "fielded by second baseman", "fielded by the second baseman",
  "second baseman fields", "second baseman to", "second baseman throws to"]

def THIRD_B_PATTERNS : List String := [
  "third baseman ", "to third baseman", "to the third baseman", "to 3rd baseman",
  "fielded by third baseman", "fielded by the third baseman",
  "third baseman fields", "third baseman to", "third baseman throws to"]

def FIRST_B_PATTERNS : List String := [
  "first baseman ", "to first baseman", "to the first baseman", "to 1st baseman",
  "fielded by first baseman", "fielded by the first baseman",
  "first baseman fields", "first baseman to", "first baseman throws to"]

def P_PATTERNS : List String := [
  "to pitcher", "to the pitcher", "back to the pitcher",
  "back to pitcher", "back to the mound",
  "fielded by pitcher", "fielded by the pitcher",
  "pitcher fields", "pitcher to", "pitcher throws to",
  "back up the middle to the pitcher"]

def LEFT_SIDE_PATTERNS : List String := [
  "through the left side", "up the left side", "toward the left side",
  "between shortstop and third baseman", "between 3rd and ss",
  "between ss and 3b", "between short and third"]

def RIGHT_SIDE_PATTERNS : List String := [
  "through the right side", "up the right side", "toward the right side",
  "between first baseman and second baseman", "between 1st and 2nd",
  "between second and first"]

/-- One `add_candidates(patterns, code, label)` call of `classify_location`:
every pattern found in the line yields `(index, code)`. -/
def addCandidates (pats : List String) (code : String) (line_lower : String) :
    List (Nat × String) :=
  pats.filterMap (fun kw => (strFind line_lower kw).map (fun i => (i, code)))

/-- Python `min(candidates, key=lambda x: x[0])`: first element of least index. -/
def minByIdx (l : List (Nat × String)) : Option (Nat × String) :=
  l.foldl
    (fun best c =>
      match best with
      | none => some c
      | some b => if c.1 < b.1 then some c else some b)
    none

/-- The candidate list built by the successive `add_candidates` calls of
`classify_location`, in their call order. -/
def locCandidates (line_lower : String) : List (Nat × String) :=
  addCandidates LF_PATTERNS "LF" line_lower ++
  addCandidates CF_PATTERNS "CF" line_lower ++
  addCandidates RF_PATTERNS "RF" line_lower ++
  addCandidates SS_PATTERNS "SS" line_lower ++
  addCandidates THIRD_B_PATTERNS "3B" line_lower ++
  addCandidates SECOND_B_PATTERNS "2B" line_lower ++
  addCandidates FIRST_B_PATTERNS "1B" line_lower ++
  addCandidates P_PATTERNS "P" line_lower

/-- `classify_location` of app.py (rationale strings dropped). -/
def classify_location (line_lower : String) (strict_mode : Bool) : Option String × Nat :=
  if strContains line_lower "sacrifice bunt" || strContains line_lower "sac bunt" ||
      strContains line_lower "sacrifice hit" then (none, 3)
  else if strContains line_lower "bunt" then (none, 3)
  else
    match minByIdx (locCandidates line_lower) with
    | some c => (some c.2, 3)
    | none =>
      if strict_mode then (none, 0)
      else if LEFT_SIDE_PATTERNS.any (fun kw => strContains line_lower kw) then (some "SS", 1)
      else if RIGHT_SIDE_PATTERNS.any (fun kw => strContains line_lower kw) then (some "2B", 1)
      else (none, 0)

/-! ## Ball-in-play test -/

def BIP_EXCLUDE : List String := [
  "hit by pitch", "hit-by-pitch", "hit batsman",
  "walks", "walked", " base on balls", "intentional walk",
  "strikes out", "strikeout", "called out on strikes",
  "reaches on catcher interference", "catcher's interference",
  "defensive indifference",
  "picked off", "pickoff"]

def BIP_OUTCOMES : List String := [
  "grounds", "grounded", "ground ball", "groundball", "grounder",
  "singles", "doubles", "triples", "homers", "home run",
  "lines out", "line drive", "lined out", "line out",
  "flies out", "fly ball", "flied out", "fly out",
  "pops out", "pop up", "pop-out", "popup",
  "bloops", "blooper",
  "bunts", "bunt", "sacrifice bunt", "sac bunt", "sacrifice hit",
  "sac fly", "sacrifice fly",
  "reaches on a fielding error", "reaches on a throwing error",
  "reaches on error", "reached on error", "safe on error",
  "reaches on a missed catch error",
  "fielder's choice", "fielders choice",
  "double play", "triple play",
  "out at first", "out at second", "out at third", "out at home"]

def FIELDER_MARKERS : List String := [
  "left fielder", "center fielder", "right fielder",
  "shortstop", "second baseman", "third baseman", "first baseman",
  "to left field", "to center field", "to right field",
  "to shortstop", "to second baseman", "to third baseman", "to first baseman",
  "to pitcher", "back to the mound",
  "down the left", "down the right", "left-center", "right-center"]

/-- `is_ball_in_play` of app.py. -/
def is_ball_in_play (line_lower : String) : Bool :=
  let ll := pyStrip line_lower
  if ll = "" then false
  else if BIP_EXCLUDE.any (fun kw => strContains ll kw) then false
  else if BIP_OUTCOMES.any (fun kw => strContains ll kw) then true
  else FIELDER_MARKERS.any (fun m => strContains ll m)

/-! ## Roster resolver -/

def BAD_FIRST_TOKENS : List String := [
  "top", "bottom", "inning", "pitch", "ball", "strike", "foul",
  "runner", "runners", "advances", "advance", "steals", "stole", "caught",
  "substitution", "defensive", "offensive", "double", "triple", "single", "home",
  "out", "safe", "error", "no", "one", "two", "three"]

/-- `starts_like_name` of app.py. -/
def starts_like_name (token : String) : Bool :=
  let t := pyLower (pyStrip (pyStripQuotes (pyStrip token)))
  match t.data with
  | [] => false
  | c :: _ => c.isAlpha && !(BAD_FIRST_TOKENS.contains t)

/-- The cleaned roster iterator `(r.strip().strip('"') for r in roster if r)`. -/
def rosterClean (roster : List String) : List String :=
  (roster.filter (fun r => r ≠ "")).map (fun r => pyStripQuotes (pyStrip r))

/-- Stable insertion by descending string length: the Lean counterpart of
Python's stable `sorted(..., key=len, reverse=True)`. -/
def insertLenDesc (x : String) : List String → List String
  | [] => [x]
  | y :: ys => if x.data.length < y.data.length then y :: insertLenDesc x ys else x :: y :: ys

def sortByLenDesc : List String → List String
  | [] => []
  | x :: xs => insertLenDesc x (sortByLenDesc xs)

/-- The cleaning applied by `get_batter_name`: strip quotes, remove
parentheticals, collapse whitespace. -/
def batterClean (line : String) : String :=
  pyCollapseStrip ⟨removeParens (pyStripQuotes (pyStrip line)).data⟩

/-- `get_batter_name` of app.py (the intermediate Python locals `line`,
`clean`, `parts`, `roster_sorted`, `candidate` are inlined; `batterClean`
is exactly the cleaning the function performs). -/
def get_batter_name (line : String) (roster : List String) : Option String :=
  if pyStripQuotes (pyStrip line) = "" then none
  else if batterClean line = "" then none
  else
    match pySplitWs (batterClean line) with
    | [] => none
    | p0 :: _ =>
      if !starts_like_name p0 then none
      else
        match (sortByLenDesc (rosterClean roster)).find?
            (fun rname => batterClean line == rname ||
              (rname ++ " ").data.isPrefixOf (batterClean line).data) with
        | some rname => some rname
        | none =>
          if (pySplitWs (batterClean line)).length ≥ 2 then
            if roster.contains
                (p0 ++ " " ++ (((pySplitWs (batterClean line)).getLast?).getD "")) then
              some (p0 ++ " " ++ (((pySplitWs (batterClean line)).getLast?).getD ""))
            else none
          else none

/-! ## Running events (SB / CS)

`SB_ACTION_REGEX = \b(steals?|stole)\s+(2nd|second|3rd|third)\b` and
`CS_ACTION_REGEX = \b(caught\s+stealing|out\s+stealing)\s+(2nd|second|3rd|third)\b`,
both `re.IGNORECASE`, searched leftmost.  The searches below return the match
start index (`m.start()`) and the original-case text of group 2. -/

def lcl (cs : List Char) : List Char := cs.map Char.toLower

/-- Case-insensitively match one of `alts` (given lower-case) as a prefix,
returning the original-case matched slice and the remainder. -/
def matchAlts (alts : List String) (cs : List Char) : Option (List Char × List Char) :=
  alts.findSome? (fun a =>
    if a.data.isPrefixOf (lcl cs) then some (cs.take a.data.length, cs.drop a.data.length)
    else none)

/-- `\s+`: at least one whitespace character, consumed greedily. -/
def dropWs1 : List Char → Option (List Char)
  | c :: rest => if isWs c then some (rest.dropWhile isWs) else none
  | [] => none

def BASE_ALTS : List String := ["2nd", "second", "3rd", "third"]

/-- Match `(steals?|stole)\s+(2nd|second|3rd|third)\b` at this position,
returning group 2.  Alternatives are tried in the regex backtracking order. -/
def sbMatchAt (cs : List Char) : Option (List Char) :=
  ["steals", "steal", "stole"].findSome? (fun v =>
    if v.data.isPrefixOf (lcl cs) then
      match dropWs1 (cs.drop v.data.length) with
      | some rest2 =>
        match matchAlts BASE_ALTS rest2 with
        | some (grp, rest3) => if boundaryAfter rest3 then some grp else none
        | none => none
      | none => none
    else none)

/-- Match `(caught\s+stealing|out\s+stealing)\s+(2nd|second|3rd|third)\b`. -/
def csMatchAt (cs : List Char) : Option (List Char) :=
  [("caught", "stealing"), ("out", "stealing")].findSome? (fun pr =>
    if pr.1.data.isPrefixOf (lcl cs) then
      match dropWs1 (cs.drop pr.1.data.length) with
      | some r2 =>
        if pr.2.data.isPrefixOf (lcl r2) then
          match dropWs1 (r2.drop pr.2.data.length) with
          | some rest2 =>
            match matchAlts BASE_ALTS rest2 with
            | some (grp, rest3) => if boundaryAfter rest3 then some grp else none
            | none => none
          | none => none
        else none
      | none => none
    else none)

/-- Leftmost search: scans start positions left to right, requiring a word
boundary before the match (all patterns start with a letter). -/
def reGroupSearchAux (matchAt : List Char → Option (List Char)) :
    Option Char → List Char → Nat → Option (Nat × List Char)
  | prev, [], i =>
    if boundaryBefore prev then (matchAt []).map (fun grp => (i, grp)) else none
  | prev, c :: rest, i =>
    match (if boundaryBefore prev then matchAt (c :: rest) else none) with
    | some grp => some (i, grp)
    | none => reGroupSearchAux matchAt (some c) rest (i + 1)

/-- `SB_ACTION_REGEX.search(line)`: `(m.start(), m.group(2))`. -/
def sbSearch (line : String) : Option (Nat × String) :=
  (reGroupSearchAux sbMatchAt none line.data 0).map (fun r => (r.1, ⟨r.2⟩))

/-- `CS_ACTION_REGEX.search(line)`: `(m.start(), m.group(2))`. -/
def csSearch (line : String) : Option (Nat × String) :=
  (reGroupSearchAux csMatchAt none line.data 0).map (fun r => (r.1, ⟨r.2⟩))

/-- `normalize_base_bucket` of app.py (`prefix` argument renamed `pfx`). -/
def normalize_base_bucket (pfx : String) (base_raw : Option String) : String :=
  match base_raw with
  | none => pfx
  | some br =>
    let b := pyStrip (pyStripParens (pyLower (pyStrip br)))
    if b = "2nd" || b = "second" then pfx ++ "-2B"
    else if b = "3rd" || b = "third" then pfx ++ "-3B"
    else if b = "home" then pfx
    else pfx

/-- `extract_runner_before_index` of app.py. -/
def extract_runner_before_index (line : String) (idx : Nat) (roster : List String) :
    Option String :=
  if line = "" then none
  else
    let left : String := ⟨line.data.take idx⟩
    let chunk0 := pyStrip (((pySplitChar ',' left).getLast?).getD "")
    let chunk1 : String := ⟨removeParens chunk0.data⟩
    let chunk := pyCollapseStrip chunk1
    if chunk = "" then none
    else
      let roster_sorted := sortByLenDesc (rosterClean roster)
      let chunk_lower := pyLower chunk
      match roster_sorted.find?
          (fun rn => rn ≠ "" && pyEndsWith chunk_lower (pyLower rn)) with
      | some rn => some rn
      | none =>
        let parts := pySplitWs chunk
        if parts.length ≥ 2 then
          let cand := ((parts.get? (parts.length - 2)).getD "") ++ " " ++
            ((parts.getLast?).getD "")
          if roster.contains cand then some cand else none
        else none

/-- First parenthesised group with nonempty content (`PAREN_NAME_REGEX`). -/
def scanClose : List Char → Option (List Char × List Char)
  | [] => none
  | c :: rest =>
    if c = ')' then some ([], rest)
    else (scanClose rest).map (fun pr => (c :: pr.1, pr.2))

def parenFirst : List Char → Option (List Char)
  | [] => none
  | c :: rest =>
    if c = '(' then
      match scanClose rest with
      | some (content, _) => if content.isEmpty then parenFirst rest else some content
      | none => parenFirst rest
    else parenFirst rest

/-- `extract_runner_name_fallback` of app.py. -/
def extract_runner_name_fallback (clean_line : String) (roster : List String) :
    Option String :=
  match get_batter_name clean_line roster with
  | some runner => some runner
  | none =>
    match parenFirst clean_line.data with
    | some grp =>
      let inside : String := ⟨squashWs (pyStrip ⟨grp⟩).data⟩
      get_batter_name inside roster
    | none => none

/-- `parse_running_event` of app.py: `(runner, total_key, base_key)`;
the Python `(None, None, None)` result is `none`. -/
def parse_running_event (clean_line : String) (roster : List String) :
    Option (String × String × String) :=
  let line := pyStrip clean_line
  if line = "" then none
  else
    match sbSearch line with
    | some mr =>
      let base_key := normalize_base_bucket "SB" (some mr.2)
      match (extract_runner_before_index line mr.1 roster).orElse
          (fun _ => extract_runner_name_fallback line roster) with
      | some runner => some (runner, "SB", base_key)
      | none => none
    | none =>
      match csSearch line with
      | some mr =>
        let base_key := normalize_base_bucket "CS" (some mr.2)
        match (extract_runner_before_index line mr.1 roster).orElse
            (fun _ => extract_runner_name_fallback line roster) with
        | some runner => some (runner, "CS", base_key)
        | none => none
      | none => none

/-! ## The game-processing pass (`Process Game` block of app.py)

One line of the loop body is `stepLine`; `none` models a raised `KeyError`
(the only exception the engine part of the loop can raise), which aborts
the whole game. -/

structure GameSt where
  team : StatDict
  players : PlayerDict
  gp : List String
  seen : List (String × String × String × String)
  ctx : Option String
deriving DecidableEq

/-- Set insertion (`set.add`). -/
def addUniq (l : List String) (x : String) : List String :=
  if l.contains x then l else l ++ [x]

/-- The per-line cleaning of the loop:
`line.strip().strip('"')`, parenthetical removal, whitespace collapse. -/
def cleanLineOf (line : String) : String :=
  pyCollapseStrip ⟨removeParens (pyStripQuotes (pyStrip line)).data⟩

/-- `\bcr\b` search (courtesy-runner marker). -/
def wordCR (line_lower : String) : Bool := reSearch (.str "cr") line_lower

/-- The GP-tracking and batter-context block of the loop. -/
def gpScan (roster : List String) (clean_line line_lower : String) (st : GameSt) : GameSt :=
  if strContains line_lower "courtesy runner" || wordCR line_lower then st
  else
    let st1 :=
      if strContains line_lower " at bat" then
        match get_batter_name clean_line roster with
        | some bn => { st with gp := addUniq st.gp bn, ctx := some bn }
        | none => st
      else st
    if strContains line_lower "lineup changed" || strContains line_lower "defensive" ||
        strContains line_lower " in for " then
      let uline := " " ++ pyReplComma (pyUpper clean_line) ++ " "
      { st1 with
        gp := roster.foldl
          (fun g p => if strContains uline (" " ++ pyUpper p ++ " ") then addUniq g p else g)
          st1.gp }
    else st1

/-- The running-event block of the loop (`running_seen` dedupe). -/
def runBlock (roster : List String) (clean_line line_lower : String) (st : GameSt) :
    Option GameSt :=
  match parse_running_event clean_line roster with
  | none => some st
  | some (runner, total_key, base_key) =>
    let key := (runner, total_key, base_key, line_lower)
    if st.seen.contains key then some st
    else
      match dincr st.team total_key with
      | none => none
      | some team1 =>
        match pincr st.players runner total_key with
        | none => none
        | some players1 =>
          if base_key ≠ "" ∧ RUN_KEYS.contains base_key then
            match dincr team1 base_key with
            | none => none
            | some team2 =>
              match pincr players1 runner base_key with
              | none => none
              | some players2 =>
                some { st with seen := st.seen ++ [key], team := team2, players := players2 }
          else
            some { st with seen := st.seen ++ [key], team := team1, players := players1 }

/-- Location/type recording for one ball in play, given the resolved location. -/
def recordLoc (st : GameSt) (batter : String) (loc : String) (bt0 : Option String) :
    Option GameSt :=
  let ball_type :=
    match bt0 with
    | some b => some b
    | none =>
      if ["SS", "3B", "2B", "1B", "P"].contains loc then some "GB"
      else if ["LF", "CF", "RF"].contains loc then some "FB"
      else none
  match dincr st.team loc with
  | none => none
  | some team1 =>
    match pincr st.players batter loc with
    | none => none
    | some players1 =>
      match ball_type with
      | some b =>
        if BALLTYPE_KEYS.contains b then
          match dincr team1 b with
          | none => none
          | some team2 =>
            match pincr players1 batter b with
            | none => none
            | some players2 =>
              if (b == "GB" || b == "FB") && COMBO_LOCS.contains loc then
                match dincr team2 (b ++ "-" ++ loc) with
                | none => none
                | some team3 =>
                  match pincr players2 batter (b ++ "-" ++ loc) with
                  | none => none
                  | some players3 => some { st with team := team3, players := players3 }
              else some { st with team := team2, players := players2 }
        else some { st with team := team1, players := players1 }
      | none => some { st with team := team1, players := players1 }

/-- The ball-in-play block of the loop (after the batter is resolved). -/
def bipBlock (strict_mode : Bool) (line_lower : String) (batter : String) (st : GameSt) :
    Option GameSt :=
  if !is_ball_in_play line_lower then some st
  else if strContains line_lower "bunt" || strContains line_lower "sacrifice hit" then
    match dincr st.team BUNTS_KEY with
    | none => none
    | some team1 =>
      match pincr st.players batter BUNTS_KEY with
      | none => none
      | some players1 => some { st with team := team1, players := players1 }
  else
    let loc0 := (classify_location line_lower strict_mode).1
    let bt0 := (classify_ball_type line_lower).1
    match loc0 with
    | none => if strict_mode then some st else recordLoc st batter "UNKNOWN" bt0
    | some loc => recordLoc st batter loc bt0

/-- One iteration of `for line in lines`. -/
def stepLine (roster : List String) (strict_mode : Bool) (st : GameSt) (line : String) :
    Option GameSt :=
  let clean_line := cleanLineOf line
  if clean_line = "" then some st
  else
    let line_lower := pyLower clean_line
    if pyStartsWith line_lower "top " || pyStartsWith line_lower "bottom " then
      some { st with ctx := none }
    else
      let st1 := gpScan roster clean_line line_lower st
      match runBlock roster clean_line line_lower st1 with
      | none => none
      | some st2 =>
        match (get_batter_name clean_line roster).orElse (fun _ => st2.ctx) with
        | none => some st2
        | some batter =>
          let st3 := { st2 with gp := addUniq st2.gp batter }
          bipBlock strict_mode line_lower batter st3

/-- Initial per-game state: `empty_stat_dict` team, roster-keyed players. -/
def initGameSt (roster : List String) : GameSt :=
  { team := empty_stat_dict
    players := roster.foldl
      (fun ps p => if (pget ps p).isSome then ps else ps ++ [(p, empty_stat_dict)]) []
    gp := []
    seen := []
    ctx := none }

/-- The GP finalization loop (`for p in gp_in_game: ...`). -/
def finalizeGP (st : GameSt) : Option GameSt :=
  match st.gp.foldlM
      (fun ps p =>
        match pget ps p with
        | none => some ps
        | some _ =>
          match pincr ps p GP_KEY with
          | some ps2 => some ps2
          | none => none)
      st.players with
  | none => none
  | some players => some { st with players := players }

/-- The whole per-game aggregation over the cleaned nonempty lines. -/
def runGame (roster : List String) (strict_mode : Bool) (lines : List String) :
    Option GameSt :=
  match lines.foldlM (stepLine roster strict_mode) (initGameSt roster) with
  | none => none
  | some st => finalizeGP st

/-! ## Season merge -/

/-- `add_game_to_season` of app.py. -/
def add_game_to_season (season_team : StatDict) (season_players : PlayerDict)
    (game_team : StatDict) (game_players : PlayerDict) : StatDict × PlayerDict :=
  let team2 := ALL_KEYS.foldl
    (fun t k => dset t k (dgetD t k + dgetD game_team k)) season_team
  let players2 := game_players.foldl
    (fun sps pr =>
      let sps1 := if (pget sps pr.1).isSome then sps else sps ++ [(pr.1, empty_stat_dict)]
      let sstats := (pget sps1 pr.1).getD empty_stat_dict
      let sstats2 := ALL_KEYS.foldl
        (fun d k => dset d k (dgetD d k + dgetD pr.2 k)) sstats
      pset sps1 pr.1 sstats2)
    season_players
  (team2, players2)

/-! ## Season state and `process_game` -/

structure SeasonSt where
  team : StatDict
  players : PlayerDict
  gamesPlayed : Nat
  processed : List String
  archived : List String
deriving DecidableEq

inductive Outcome where
  | ok
  | emptyText
  | emptyRoster
  | duplicate
  | failed
deriving DecidableEq

/-- The `Process Game` click handler of app.py, restricted to the engine:
empty-input precondition checks, content-hash dedup, per-game aggregation,
season merge, and rollback of the dedup mark when aggregation raises.
On every non-`ok` outcome the durable season state is unchanged. -/
def processGame (st : SeasonSt) (team_key : String) (roster : List String)
    (strict_mode : Bool) (raw_text : String) : Outcome × SeasonSt :=
  if pyStrip raw_text = "" then (.emptyText, st)
  else if roster = [] then (.emptyRoster, st)
  else
    let gkey := game_key_from_pbp team_key raw_text
    if st.processed.contains gkey then (.duplicate, st)
    else
      let lines := ((pySplitChar '\n' raw_text).map pyStrip).filter (fun ln => ln ≠ "")
      match runGame roster strict_mode lines with
      | none => (.failed, st)
      | some g =>
        let merged := add_game_to_season st.team st.players g.team g.players
        let processed2 := st.processed ++ [gkey]
        (.ok,
          { team := merged.1
            players := merged.2
            gamesPlayed := processed2.length
            processed := processed2
            archived := st.archived })

/-! ## Roster save and archival (`Save Roster` handler of app.py) -/

/-- The player-loading part of `db_load_season_totals`: stored per-player
records are completed with `ensure_all_keys`, then every current-roster
player missing from the stored totals is added with an empty record. -/
def loadSeasonPlayers (raw_players : PlayerDict) (current_roster : List String) :
    PlayerDict :=
  let sp := raw_players.map (fun pr => (pr.1, ensure_all_keys pr.2))
  current_roster.foldl
    (fun ps p => if (pget ps p).isSome then ps else ps ++ [(p, empty_stat_dict)]) sp

/-- The `Save Roster` button handler: reload season players against the new
roster, archive everyone removed from the roster (keeping their stats),
unarchive everyone re-added, and ensure new roster players exist. -/
def saveRoster (raw_players : PlayerDict) (db_archived : List String)
    (new_roster : List String) : PlayerDict × List String :=
  let season_players := loadSeasonPlayers raw_players new_roster
  let removed := (season_players.map (fun pr => pr.1)).filter
    (fun p => !(new_roster.contains p))
  let archived1 := db_archived ++ removed.filter (fun p => !(db_archived.contains p))
  let archived := archived1.filter (fun p => !(new_roster.contains p))
  let season_players2 := new_roster.foldl
    (fun ps p => if (pget ps p).isSome then ps else ps ++ [(p, empty_stat_dict)])
    season_players
  (season_players2, archived)

/-! ## Pitching attribution state machine

Modelled from the spec: the Pitching Attribution State Machine (spec §4.4)
is not present in `src/app.py` (no pitching code exists in the source file);
only the spec describes it.  Events are the spec's three relevant line
kinds: a half-inning header (carrying whether our team is on defense),
a pitcher-naming line, and an outs-marker line carrying the new outs count
for the half-inning; the terminal out count is 3. -/

inductive PitchEvent where
  | header (ours : Bool)
  | named (p : String)
  | outsMark (n : Nat)
deriving DecidableEq

structure PitchSt where
  defendingOurs : Bool
  active : Option String
  pendingOuts : Nat
  lastOuts : Nat
  totals : List (String × Nat)
deriving DecidableEq

def UNKNOWN_PITCHER : String := "Unknown Pitcher"

/-- Modelled from the spec: one transition of the pitching state machine.
A header resets the pending buffer and the active pitcher to unknown; a
naming line sets the pitcher and flushes the pending buffer into their
record; an outs marker adds the delta to the active pitcher or to the
pending buffer, and at the terminal out count (3) with the pitcher still
unknown the pending buffer is flushed to the unknown-pitcher sentinel. -/
def pitchStep (st : PitchSt) (e : PitchEvent) : PitchSt :=
  match e with
  | .header ours =>
    { st with defendingOurs := ours, active := none, pendingOuts := 0, lastOuts := 0 }
  | .named p =>
    { st with
      active := some p
      totals := dset st.totals p (dgetD st.totals p + st.pendingOuts)
      pendingOuts := 0 }
  | .outsMark n =>
    let delta := n - st.lastOuts
    if st.defendingOurs then
      match st.active with
      | some p =>
        { st with totals := dset st.totals p (dgetD st.totals p + delta), lastOuts := n }
      | none =>
        let pend := st.pendingOuts + delta
        if 3 ≤ n then
          { st with
            totals := dset st.totals UNKNOWN_PITCHER (dgetD st.totals UNKNOWN_PITCHER + pend)
            pendingOuts := 0
            lastOuts := n }
        else { st with pendingOuts := pend, lastOuts := n }
    else { st with lastOuts := n }

def initPitchSt : PitchSt :=
  { defendingOurs := false, active := none, pendingOuts := 0, lastOuts := 0, totals := [] }

def runPitch (events : List PitchEvent) : PitchSt :=
  events.foldl pitchStep initPitchSt

/-! ## Association-list lemmas -/

theorem dget_dset_self (d : StatDict) (k : String) (v : Nat) :
    dget (dset d k v) k = some v := by
  induction d with
  | nil => simp [dget, dset, List.find?]
  | cons kv rest ih =>
    by_cases h : kv.1 = k
    · simp [dget, dset, h, List.find?]
    · have hb : (kv.1 == k) = false := by simp [h]
      simp only [dset, hb, if_false]
      simpa [dget, List.find?, hb] using ih

theorem dget_dset_ne (d : StatDict) (k k' : String) (v : Nat) (h : k ≠ k') :
    dget (dset d k' v) k = dget d k := by
  have hks : (k' == k) = false := beq_eq_false_iff_ne.mpr (Ne.symm h)
  induction d with
  | nil => simp [dget, dset, List.find?, hks]
  | cons kv rest ih =>
    by_cases h1 : kv.1 = k'
    · have hb : (kv.1 == k') = true := by simp [h1]
      have hbk : (kv.1 == k) = false := by
        subst h1; simpa using hks
      simp [dget, dset, hb, hbk, hks, List.find?]
    · have hb : (kv.1 == k') = false := by simp [h1]
      simp only [dset, hb, if_false]
      by_cases h2 : kv.1 = k
      · simp [dget, List.find?, h2]
      · have hbk : (kv.1 == k) = false := by simp [h2]
        simpa [dget, List.find?, hbk] using ih

theorem dgetD_dset_self (d : StatDict) (k : String) (v : Nat) :
    dgetD (dset d k v) k = v := by
  simp [dgetD, dget_dset_self]

theorem dgetD_dset_ne (d : StatDict) (k k' : String) (v : Nat) (h : k ≠ k') :
    dgetD (dset d k' v) k = dgetD d k := by
  simp [dgetD, dget_dset_ne d k k' v h]

theorem dincr_eq_some {d : StatDict} {k : String} {d2 : StatDict}
    (h : dincr d k = some d2) : d2 = dset d k (dgetD d k + 1) := by
  unfold dincr at h
  cases hv : dget d k with
  | none => rw [hv] at h; simp at h
  | some v => rw [hv] at h; simp at h; simp [← h, dgetD, hv]

theorem dgetD_dincr_self {d : StatDict} {k : String} {d2 : StatDict}
    (h : dincr d k = some d2) : dgetD d2 k = dgetD d k + 1 := by
  rw [dincr_eq_some h, dgetD_dset_self]

theorem dgetD_dincr_ne {d : StatDict} {k k' : String} {d2 : StatDict}
    (h : dincr d k' = some d2) (hne : k ≠ k') : dgetD d2 k = dgetD d k := by
  rw [dincr_eq_some h, dgetD_dset_ne _ _ _ _ hne]

theorem pget_pset_self (ps : PlayerDict) (p : String) (d : StatDict) :
    pget (pset ps p d) p = some d := by
  induction ps with
  | nil => simp [pget, pset, List.find?]
  | cons kv rest ih =>
    by_cases h : kv.1 = p
    · simp [pget, pset, h, List.find?]
    · have hb : (kv.1 == p) = false := by simp [h]
      simp only [pset, hb, if_false]
      simpa [pget, List.find?, hb] using ih

theorem pget_pset_ne (ps : PlayerDict) (p q : String) (d : StatDict) (h : q ≠ p) :
    pget (pset ps p d) q = pget ps q := by
  have hps : (p == q) = false := beq_eq_false_iff_ne.mpr (Ne.symm h)
  induction ps with
  | nil => simp [pget, pset, List.find?, hps]
  | cons kv rest ih =>
    by_cases h1 : kv.1 = p
    · have hb : (kv.1 == p) = true := by simp [h1]
      have hbk : (kv.1 == q) = false := by
        subst h1; simpa using hps
      simp [pget, pset, hb, hbk, hps, List.find?]
    · have hb : (kv.1 == p) = false := by simp [h1]
      simp only [pset, hb, if_false]
      by_cases h2 : kv.1 = q
      · simp [pget, List.find?, h2]
      · have hbk : (kv.1 == q) = false := by simp [h2]
        simpa [pget, List.find?, hbk] using ih

theorem pincr_playerStat_ne {ps : PlayerDict} {p k : String} {ps2 : PlayerDict}
    (h : pincr ps p k = some ps2) (k' : String) (hk : k' ≠ k) (q : String) :
    playerStat ps2 q k' = playerStat ps q k' := by
  unfold pincr at h
  cases hp : pget ps p with
  | none => rw [hp] at h; simp at h
  | some d =>
    cases hd : dincr d k with
    | none => simp [hp, hd] at h
    | some d2 =>
      simp only [hp, hd, Option.some.injEq] at h
      by_cases hq : q = p
      · subst hq
        simp [playerStat, ← h, pget_pset_self, hp, dgetD_dincr_ne hd hk]
      · simp [playerStat, ← h, pget_pset_ne ps p q d2 hq]

theorem pincr_playerStat_self {ps : PlayerDict} {p k : String} {ps2 : PlayerDict}
    (h : pincr ps p k = some ps2) : playerStat ps2 p k = playerStat ps p k + 1 := by
  unfold pincr at h
  cases hp : pget ps p with
  | none => rw [hp] at h; simp at h
  | some d =>
    cases hd : dincr d k with
    | none => simp [hp, hd] at h
    | some d2 =>
      simp only [hp, hd, Option.some.injEq] at h
      simp [playerStat, ← h, pget_pset_self, hp, dgetD_dincr_self hd]

/-! ## Classification support lemmas -/

theorem minByIdx_mem_aux (l : List (Nat × String)) :
    ∀ (acc : Option (Nat × String)) (x : Nat × String),
      l.foldl
        (fun best c =>
          match best with
          | none => some c
          | some b => if c.1 < b.1 then some c else some b)
        acc = some x → x ∈ l ∨ acc = some x := by
  induction l with
  | nil => intro acc x h; simp at h; simp [h]
  | cons c t ih =>
    intro acc x h
    rcases ih _ x h with hm | hstep
    · exact Or.inl (List.mem_cons_of_mem _ hm)
    · cases acc with
      | none =>
        simp at hstep
        exact Or.inl (by simp [hstep])
      | some b =>
        by_cases hc : c.1 < b.1
        · simp [hc] at hstep
          exact Or.inl (by simp [hstep])
        · simp [hc] at hstep
          exact Or.inr (by simp [hstep])

theorem minByIdx_mem {l : List (Nat × String)} {x : Nat × String}
    (h : minByIdx l = some x) : x ∈ l := by
  rcases minByIdx_mem_aux l none x h with hm | hacc
  · exact hm
  · simp at hacc

theorem addCandidates_code {pats : List String} {code : String} {ll : String}
    {c : Nat × String} (h : c ∈ addCandidates pats code ll) : c.2 = code := by
  unfold addCandidates at h
  rcases List.mem_filterMap.mp h with ⟨kw, _, hkw⟩
  cases hf : strFind ll kw with
  | none => rw [hf] at hkw; simp at hkw
  | some i => rw [hf] at hkw; simp at hkw; simp [← hkw]

/-- The location codes that `classify_location` can produce. -/
def LOC_CODES : List String := ["LF", "CF", "RF", "SS", "3B", "2B", "1B", "P"]

theorem locCandidates_code {ll : String} {c : Nat × String}
    (hm : c ∈ locCandidates ll) : c.2 ∈ LOC_CODES := by
  unfold locCandidates at hm
  rcases List.mem_append.mp hm with hm | hm
  rcases List.mem_append.mp hm with hm | hm
  rcases List.mem_append.mp hm with hm | hm
  rcases List.mem_append.mp hm with hm | hm
  rcases List.mem_append.mp hm with hm | hm
  rcases List.mem_append.mp hm with hm | hm
  rcases List.mem_append.mp hm with hm | hm
  all_goals rw [addCandidates_code hm]
  all_goals simp [LOC_CODES]

theorem classify_location_codes (ll : String) (strict : Bool) (l : String)
    (h : (classify_location ll strict).1 = some l) : l ∈ LOC_CODES := by
  unfold classify_location at h
  split at h
  · simp at h
  · split at h
    · simp at h
    · cases hc : minByIdx (locCandidates ll) with
      | some c =>
        rw [hc] at h
        simp at h
        subst h
        exact locCandidates_code (minByIdx_mem hc)
      | none =>
        rw [hc] at h
        dsimp only at h
        split at h
        · simp at h
        · split at h
          · simp at h
            subst h
            simp [LOC_CODES]
          · split at h
            · simp at h
              subst h
              simp [LOC_CODES]
            · simp at h

/-- Every location that the ball-in-play block can record. -/
def REC_LOCS : List String := ["LF", "CF", "RF", "SS", "3B", "2B", "1B", "P", "UNKNOWN"]

theorem run_key_disjoint (k : String) (hk : k ∈ RUN_KEYS) (l : String)
    (hl : l ∈ REC_LOCS) :
    k ≠ l ∧ k ≠ "GB" ∧ k ≠ "FB" ∧ k ≠ BUNTS_KEY ∧ k ≠ "GB-" ++ l ∧ k ≠ "FB-" ++ l := by
  fin_cases hk <;> fin_cases hl <;>
    exact ⟨by decide, by decide, by decide, by decide, by decide, by decide⟩

/-! ## Frame lemmas for the per-line blocks -/

theorem recordLoc_preserves {st : GameSt} {batter loc : String} {bt0 : Option String}
    {st' : GameSt} (h : recordLoc st batter loc bt0 = some st')
    (k : String) (hkl : k ≠ loc) (hkg : k ≠ "GB") (hkf : k ≠ "FB")
    (hkgc : k ≠ "GB-" ++ loc) (hkfc : k ≠ "FB-" ++ loc) :
    st'.seen = st.seen ∧ st'.gp = st.gp ∧ st'.ctx = st.ctx ∧
      dgetD st'.team k = dgetD st.team k ∧
      ∀ q, playerStat st'.players q k = playerStat st.players q k := by
  unfold recordLoc at h
  cases h1 : dincr st.team loc with
  | none => rw [h1] at h; simp at h
  | some team1 =>
  rw [h1] at h
  cases h2 : pincr st.players batter loc with
  | none => rw [h2] at h; simp at h
  | some players1 =>
  rw [h2] at h
  dsimp only at h
  have hteam1 : dgetD team1 k = dgetD st.team k := dgetD_dincr_ne h1 hkl
  have hpl1 : ∀ q, playerStat players1 q k = playerStat st.players q k :=
    fun q => pincr_playerStat_ne h2 k hkl q
  split at h
  · rename_i b hbt
    split at h
    · rename_i hbk
      have hb : b = "GB" ∨ b = "FB" := by
        simpa [BALLTYPE_KEYS] using hbk
      have hkb : k ≠ b := by rcases hb with rfl | rfl <;> assumption
      cases h3 : dincr team1 b with
      | none => rw [h3] at h; simp at h
      | some team2 =>
      rw [h3] at h
      cases h4 : pincr players1 batter b with
      | none => rw [h4] at h; simp at h
      | some players2 =>
      rw [h4] at h
      dsimp only at h
      have hteam2 : dgetD team2 k = dgetD team1 k := dgetD_dincr_ne h3 hkb
      have hpl2 : ∀ q, playerStat players2 q k = playerStat players1 q k :=
        fun q => pincr_playerStat_ne h4 k hkb q
      split at h
      · rename_i hcombo
        have hkc : k ≠ b ++ "-" ++ loc := by
          rcases hb with rfl | rfl
          · simpa [String.append_assoc] using hkgc
          · simpa [String.append_assoc] using hkfc
        cases h5 : dincr team2 (b ++ "-" ++ loc) with
        | none => rw [h5] at h; simp at h
        | some team3 =>
        rw [h5] at h
        cases h6 : pincr players2 batter (b ++ "-" ++ loc) with
        | none => rw [h6] at h; simp at h
        | some players3 =>
        rw [h6] at h
        simp only [Option.some.injEq] at h
        subst h
        refine ⟨rfl, rfl, rfl, ?_, ?_⟩
        · simp [dgetD_dincr_ne h5 hkc, hteam2, hteam1]
        · intro q
          simp [pincr_playerStat_ne h6 k hkc q, hpl2, hpl1]
      · simp only [Option.some.injEq] at h
        subst h
        exact ⟨rfl, rfl, rfl, by simp [hteam2, hteam1],
          fun q => by simp [hpl2, hpl1]⟩
    · simp only [Option.some.injEq] at h
      subst h
      exact ⟨rfl, rfl, rfl, hteam1, hpl1⟩
  · simp only [Option.some.injEq] at h
    subst h
    exact ⟨rfl, rfl, rfl, hteam1, hpl1⟩

theorem loc_codes_sub : ∀ l ∈ LOC_CODES, l ∈ REC_LOCS := by
  intro l hl
  fin_cases hl <;> simp [REC_LOCS]

theorem bipBlock_preserves {strict : Bool} {ll batter : String} {st st' : GameSt}
    (h : bipBlock strict ll batter st = some st')
    (k : String) (hk : k ∈ RUN_KEYS) :
    st'.seen = st.seen ∧ st'.gp = st.gp ∧ st'.ctx = st.ctx ∧
      dgetD st'.team k = dgetD st.team k ∧
      ∀ q, playerStat st'.players q k = playerStat st.players q k := by
  unfold bipBlock at h
  split at h
  · simp only [Option.some.injEq] at h
    subst h
    exact ⟨rfl, rfl, rfl, rfl, fun _ => rfl⟩
  · split at h
    · -- bunt branch
      have hkb : k ≠ BUNTS_KEY :=
        (run_key_disjoint k hk "UNKNOWN" (by simp [REC_LOCS])).2.2.2.1
      cases h1 : dincr st.team BUNTS_KEY with
      | none => rw [h1] at h; simp at h
      | some team1 =>
      rw [h1] at h
      cases h2 : pincr st.players batter BUNTS_KEY with
      | none => rw [h2] at h; simp at h
      | some players1 =>
      rw [h2] at h
      simp only [Option.some.injEq] at h
      subst h
      exact ⟨rfl, rfl, rfl, dgetD_dincr_ne h1 hkb,
        fun q => pincr_playerStat_ne h2 k hkb q⟩
    · -- location/type branch
      dsimp only at h
      cases hloc : (classify_location ll strict).1 with
      | none =>
        rw [hloc] at h
        dsimp only at h
        split at h
        · simp only [Option.some.injEq] at h
          subst h
          exact ⟨rfl, rfl, rfl, rfl, fun _ => rfl⟩
        · have hd := run_key_disjoint k hk "UNKNOWN" (by simp [REC_LOCS])
          exact recordLoc_preserves h k hd.1 hd.2.1 hd.2.2.1 hd.2.2.2.2.1 hd.2.2.2.2.2
      | some loc =>
        rw [hloc] at h
        dsimp only at h
        have hlc : loc ∈ REC_LOCS :=
          loc_codes_sub loc (classify_location_codes ll strict loc hloc)
        have hd := run_key_disjoint k hk loc hlc
        exact recordLoc_preserves h k hd.1 hd.2.1 hd.2.2.1 hd.2.2.2.2.1 hd.2.2.2.2.2

theorem gpScan_fields (roster : List String) (clean ll : String) (st : GameSt) :
    (gpScan roster clean ll st).team = st.team ∧
      (gpScan roster clean ll st).players = st.players ∧
      (gpScan roster clean ll st).seen = st.seen := by
  unfold gpScan
  split
  · exact ⟨rfl, rfl, rfl⟩
  · dsimp only
    repeat' split
    all_goals exact ⟨rfl, rfl, rfl⟩

/-! ## Characterization of the running-event regex captures -/

theorem matchAlts_lcl {alts : List String} {cs grp rest : List Char}
    (h : matchAlts alts cs = some (grp, rest)) : ∃ a ∈ alts, lcl grp = a.data := by
  unfold matchAlts at h
  rcases List.exists_of_findSome?_eq_some h with ⟨a, ha, hfa⟩
  split at hfa
  · rename_i hpre
    simp only [Option.some.injEq, Prod.mk.injEq] at hfa
    refine ⟨a, ha, ?_⟩
    rcases hfa with ⟨hgrp, -⟩
    subst hgrp
    have hp : a.data <+: lcl cs := by
      rw [← List.isPrefixOf_iff_prefix]; exact hpre
    have ht := List.prefix_iff_eq_take.mp hp
    calc lcl (cs.take a.data.length)
        = (lcl cs).take a.data.length := by simp [lcl, List.map_take]
      _ = a.data := ht.symm
  · simp at hfa

theorem baseAlts_lcl {cs grp rest : List Char}
    (h : matchAlts BASE_ALTS cs = some (grp, rest)) :
    lcl grp = "2nd".data ∨ lcl grp = "second".data ∨
      lcl grp = "3rd".data ∨ lcl grp = "third".data := by
  rcases matchAlts_lcl h with ⟨a, ha, hl⟩
  simp only [BASE_ALTS, List.mem_cons, List.not_mem_nil, or_false] at ha
  rcases ha with rfl | rfl | rfl | rfl
  · exact Or.inl hl
  · exact Or.inr (Or.inl hl)
  · exact Or.inr (Or.inr (Or.inl hl))
  · exact Or.inr (Or.inr (Or.inr hl))

theorem sbMatchAt_base {cs grp : List Char} (h : sbMatchAt cs = some grp) :
    lcl grp = "2nd".data ∨ lcl grp = "second".data ∨
      lcl grp = "3rd".data ∨ lcl grp = "third".data := by
  unfold sbMatchAt at h
  rcases List.exists_of_findSome?_eq_some h with ⟨v, _, hfv⟩
  split at hfv
  · cases hws : dropWs1 (cs.drop v.data.length) with
    | none => rw [hws] at hfv; simp at hfv
    | some rest2 =>
      rw [hws] at hfv
      dsimp only at hfv
      cases hma : matchAlts BASE_ALTS rest2 with
      | none => rw [hma] at hfv; simp at hfv
      | some pr =>
        rw [hma] at hfv
        dsimp only at hfv
        split at hfv
        · simp only [Option.some.injEq] at hfv
          subst hfv
          exact baseAlts_lcl hma
        · simp at hfv
  · simp at hfv

theorem csMatchAt_base {cs grp : List Char} (h : csMatchAt cs = some grp) :
    lcl grp = "2nd".data ∨ lcl grp = "second".data ∨
      lcl grp = "3rd".data ∨ lcl grp = "third".data := by
  unfold csMatchAt at h
  rcases List.exists_of_findSome?_eq_some h with ⟨pr, _, hfv⟩
  split at hfv
  · cases hws : dropWs1 (cs.drop pr.1.data.length) with
    | none => rw [hws] at hfv; simp at hfv
    | some r2 =>
      rw [hws] at hfv
      dsimp only at hfv
      split at hfv
      · cases hws2 : dropWs1 (r2.drop pr.2.data.length) with
        | none => rw [hws2] at hfv; simp at hfv
        | some rest2 =>
          rw [hws2] at hfv
          dsimp only at hfv
          cases hma : matchAlts BASE_ALTS rest2 with
          | none => rw [hma] at hfv; simp at hfv
          | some pr2 =>
            rw [hma] at hfv
            dsimp only at hfv
            split at hfv
            · simp only [Option.some.injEq] at hfv
              subst hfv
              exact baseAlts_lcl hma
            · simp at hfv
      · simp at hfv
  · simp at hfv

theorem reGroupSearchAux_matchAt {f : List Char → Option (List Char)} :
    ∀ (cs : List Char) (prev : Option Char) (i j : Nat) (grp : List Char),
      reGroupSearchAux f prev cs i = some (j, grp) → ∃ cs', f cs' = some grp := by
  intro cs
  induction cs with
  | nil =>
    intro prev i j grp h
    unfold reGroupSearchAux at h
    cases hb : boundaryBefore prev with
    | false => rw [hb, if_neg (by simp)] at h; simp at h
    | true =>
      rw [hb, if_pos rfl] at h
      cases hf : f [] with
      | none => rw [hf] at h; simp at h
      | some g =>
        rw [hf] at h
        simp only [Option.map_some', Option.some.injEq, Prod.mk.injEq] at h
        exact ⟨[], by rw [hf, h.2]⟩
  | cons c rest ih =>
    intro prev i j grp h
    unfold reGroupSearchAux at h
    cases hb : boundaryBefore prev with
    | false =>
      rw [hb, if_neg (by simp)] at h
      dsimp only at h
      exact ih (some c) (i + 1) j grp h
    | true =>
      rw [hb, if_pos rfl] at h
      cases hf : f (c :: rest) with
      | none =>
        rw [hf] at h
        dsimp only at h
        exact ih (some c) (i + 1) j grp h
      | some g =>
        rw [hf] at h
        simp only [Option.some.injEq, Prod.mk.injEq] at h
        exact ⟨c :: rest, by rw [hf, h.2]⟩

theorem sbSearch_base {line : String} {i : Nat} {b : String}
    (h : sbSearch line = some (i, b)) :
    lcl b.data = "2nd".data ∨ lcl b.data = "second".data ∨
      lcl b.data = "3rd".data ∨ lcl b.data = "third".data := by
  unfold sbSearch at h
  cases hr : reGroupSearchAux sbMatchAt none line.data 0 with
  | none => rw [hr] at h; simp at h
  | some r =>
    rw [hr] at h
    simp only [Option.map_some', Option.some.injEq, Prod.mk.injEq] at h
    rcases reGroupSearchAux_matchAt line.data none 0 r.1 r.2 hr with ⟨cs', hcs⟩
    have : b.data = r.2 := by rw [← h.2]
    rw [this]
    exact sbMatchAt_base hcs

theorem csSearch_base {line : String} {i : Nat} {b : String}
    (h : csSearch line = some (i, b)) :
    lcl b.data = "2nd".data ∨ lcl b.data = "second".data ∨
      lcl b.data = "3rd".data ∨ lcl b.data = "third".data := by
  unfold csSearch at h
  cases hr : reGroupSearchAux csMatchAt none line.data 0 with
  | none => rw [hr] at h; simp at h
  | some r =>
    rw [hr] at h
    simp only [Option.map_some', Option.some.injEq, Prod.mk.injEq] at h
    rcases reGroupSearchAux_matchAt line.data none 0 r.1 r.2 hr with ⟨cs', hcs⟩
    have : b.data = r.2 := by rw [← h.2]
    rw [this]
    exact csMatchAt_base hcs

theorem toLower_ws {c : Char} (h : isWs c = true) : Char.toLower c = c := by
  simp only [isWs, Char.isWhitespace, Bool.or_eq_true, decide_eq_true_eq] at h
  rcases h with ((rfl | rfl) | rfl) | rfl <;> decide

theorem no_ws_of_lcl {l t : List Char} (ht : ∀ c ∈ t, isWs c = false)
    (h : lcl l = t) : ∀ c ∈ l, isWs c = false := by
  intro c hc
  cases hw : isWs c with
  | false => rfl
  | true =>
    exfalso
    have hmem : Char.toLower c ∈ t := by
      rw [← h]; exact List.mem_map_of_mem Char.toLower hc
    rw [toLower_ws hw] at hmem
    have hf := ht c hmem
    rw [hw] at hf
    exact Bool.noConfusion hf

theorem dropWhile_eq_self {p : Char → Bool} {l : List Char}
    (h : ∀ c ∈ l, p c = false) : l.dropWhile p = l := by
  cases l with
  | nil => rfl
  | cons c t =>
    rw [List.dropWhile_cons]
    simp [h c (List.mem_cons_self c t)]

theorem trimBy_eq_self {p : Char → Bool} {l : List Char}
    (h : ∀ c ∈ l, p c = false) : trimBy p l = l := by
  unfold trimBy
  rw [dropWhile_eq_self h]
  rw [dropWhile_eq_self (fun c hc => h c (List.mem_reverse.mp hc))]
  exact List.reverse_reverse l

theorem pyStrip_eq_self {s : String} (h : ∀ c ∈ s.data, isWs c = false) :
    pyStrip s = s := by
  unfold pyStrip
  rw [trimBy_eq_self h]

/-- When the captured base token lower-cases to one of the four base
alternatives, `normalize_base_bucket` appends the matching suffix. -/
theorem normalize_base_of_lcl {b : String} (pfx : String)
    (h : lcl b.data = "2nd".data ∨ lcl b.data = "second".data ∨
      lcl b.data = "3rd".data ∨ lcl b.data = "third".data) :
    normalize_base_bucket pfx (some b) = pfx ++ "-2B" ∨
      normalize_base_bucket pfx (some b) = pfx ++ "-3B" := by
  have hlow : ∀ (t : String), lcl b.data = t.data → pyLower b = t := by
    intro t htl
    unfold pyLower
    rw [show (b.data.map Char.toLower) = lcl b.data from rfl, htl]
  rcases h with hl | hl | hl | hl
  · have hs : pyStrip b = b :=
      pyStrip_eq_self (no_ws_of_lcl (by decide) hl)
    refine Or.inl ?_
    unfold normalize_base_bucket
    dsimp only
    rw [hs, hlow "2nd" hl]
    rw [show pyStrip (pyStripParens "2nd") = "2nd" from by decide]
    simp
  · have hs : pyStrip b = b :=
      pyStrip_eq_self (no_ws_of_lcl (by decide) hl)
    refine Or.inl ?_
    unfold normalize_base_bucket
    dsimp only
    rw [hs, hlow "second" hl]
    rw [show pyStrip (pyStripParens "second") = "second" from by decide]
    simp
  · have hs : pyStrip b = b :=
      pyStrip_eq_self (no_ws_of_lcl (by decide) hl)
    refine Or.inr ?_
    unfold normalize_base_bucket
    dsimp only
    rw [hs, hlow "3rd" hl]
    rw [show pyStrip (pyStripParens "3rd") = "3rd" from by decide]
    simp
  · have hs : pyStrip b = b :=
      pyStrip_eq_self (no_ws_of_lcl (by decide) hl)
    refine Or.inr ?_
    unfold normalize_base_bucket
    dsimp only
    rw [hs, hlow "third" hl]
    rw [show pyStrip (pyStripParens "third") = "third" from by decide]
    simp

/-- The keys produced by `parse_running_event`: the family key is SB or CS
and the base key is always the family key with a `-2B` or `-3B` suffix. -/
theorem parse_running_keys {clean : String} {roster : List String}
    {r tk bk : String}
    (h : parse_running_event clean roster = some (r, tk, bk)) :
    (tk = "SB" ∨ tk = "CS") ∧ (bk = tk ++ "-2B" ∨ bk = tk ++ "-3B") := by
  unfold parse_running_event at h
  dsimp only at h
  split at h
  · simp at h
  · cases hsb : sbSearch (pyStrip clean) with
    | some mr =>
      rw [hsb] at h
      dsimp only at h
      cases hro : (extract_runner_before_index (pyStrip clean) mr.1 roster).orElse
          (fun _ => extract_runner_name_fallback (pyStrip clean) roster) with
      | none => rw [hro] at h; simp at h
      | some runner =>
        rw [hro] at h
        simp only [Option.some.injEq, Prod.mk.injEq] at h
        obtain ⟨-, htk, hbk⟩ := h
        subst htk
        have hb := sbSearch_base (show sbSearch (pyStrip clean) = some (mr.1, mr.2) from hsb)
        rcases normalize_base_of_lcl "SB" hb with h2 | h2
        · exact ⟨Or.inl rfl, Or.inl (by rw [← hbk, h2])⟩
        · exact ⟨Or.inl rfl, Or.inr (by rw [← hbk, h2])⟩
    | none =>
      rw [hsb] at h
      dsimp only at h
      cases hcs : csSearch (pyStrip clean) with
      | none => rw [hcs] at h; simp at h
      | some mr =>
        rw [hcs] at h
        dsimp only at h
        cases hro : (extract_runner_before_index (pyStrip clean) mr.1 roster).orElse
            (fun _ => extract_runner_name_fallback (pyStrip clean) roster) with
        | none => rw [hro] at h; simp at h
        | some runner =>
          rw [hro] at h
          simp only [Option.some.injEq, Prod.mk.injEq] at h
          obtain ⟨-, htk, hbk⟩ := h
          subst htk
          have hb := csSearch_base (show csSearch (pyStrip clean) = some (mr.1, mr.2) from hcs)
          rcases normalize_base_of_lcl "CS" hb with h2 | h2
          · exact ⟨Or.inr rfl, Or.inl (by rw [← hbk, h2])⟩
          · exact ⟨Or.inr rfl, Or.inr (by rw [← hbk, h2])⟩

theorem runBlock_parse_none {roster : List String} {clean ll : String} {st : GameSt}
    (hp : parse_running_event clean roster = none) :
    runBlock roster clean ll st = some st := by
  unfold runBlock
  rw [hp]

theorem runBlock_seen {roster : List String} {clean ll : String} {st : GameSt}
    {runner tk bk : String}
    (hp : parse_running_event clean roster = some (runner, tk, bk))
    (hseen : st.seen.contains (runner, tk, bk, ll) = true) :
    runBlock roster clean ll st = some st := by
  unfold runBlock
  rw [hp]
  dsimp only
  rw [hseen]
  simp

/-- The running-event block, first occurrence: the dedupe key is recorded and
the family key and base sub-bucket counters step by one, for the team and
for the resolved runner. -/
theorem runBlock_fresh {roster : List String} {clean ll : String} {st st2 : GameSt}
    {runner tk bk : String}
    (hp : parse_running_event clean roster = some (runner, tk, bk))
    (hseen : st.seen.contains (runner, tk, bk, ll) = false)
    (hrb : runBlock roster clean ll st = some st2) :
    st2.seen = st.seen ++ [(runner, tk, bk, ll)] ∧ st2.gp = st.gp ∧ st2.ctx = st.ctx ∧
      dgetD st2.team tk = dgetD st.team tk + 1 ∧
      playerStat st2.players runner tk = playerStat st.players runner tk + 1 ∧
      dgetD st2.team bk = dgetD st.team bk + 1 ∧
      playerStat st2.players runner bk = playerStat st.players runner bk + 1 ∧
      (∀ k, k ≠ tk → k ≠ bk → dgetD st2.team k = dgetD st.team k ∧
        ∀ q, playerStat st2.players q k = playerStat st.players q k) := by
  have hkeys := parse_running_keys hp
  have hbk_ne : bk ≠ tk := by
    rcases hkeys.2 with h2 | h2 <;> rcases hkeys.1 with h1 | h1 <;>
      subst h1 <;> rw [h2] <;> decide
  have hbk_run : RUN_KEYS.contains bk = true := by
    rcases hkeys.2 with h2 | h2 <;> rcases hkeys.1 with h1 | h1 <;>
      subst h1 <;> rw [h2] <;> decide
  have hbk_nonempty : bk ≠ "" := by
    rcases hkeys.2 with h2 | h2 <;> rcases hkeys.1 with h1 | h1 <;>
      subst h1 <;> rw [h2] <;> decide
  unfold runBlock at hrb
  rw [hp] at hrb
  dsimp only at hrb
  rw [hseen] at hrb
  simp only [Bool.false_eq_true, if_false] at hrb
  cases h1 : dincr st.team tk with
  | none => rw [h1] at hrb; simp at hrb
  | some team1 =>
  rw [h1] at hrb
  cases h2 : pincr st.players runner tk with
  | none => rw [h2] at hrb; simp at hrb
  | some players1 =>
  rw [h2] at hrb
  dsimp only at hrb
  rw [if_pos ⟨hbk_nonempty, hbk_run⟩] at hrb
  cases h3 : dincr team1 bk with
  | none => rw [h3] at hrb; simp at hrb
  | some team2 =>
  rw [h3] at hrb
  cases h4 : pincr players1 runner bk with
  | none => rw [h4] at hrb; simp at hrb
  | some players2 =>
  rw [h4] at hrb
  simp only [Option.some.injEq] at hrb
  subst hrb
  refine ⟨rfl, rfl, rfl, ?_, ?_, ?_, ?_, ?_⟩
  · rw [dgetD_dincr_ne h3 (Ne.symm hbk_ne), dgetD_dincr_self h1]
  · rw [pincr_playerStat_ne h4 tk (Ne.symm hbk_ne) runner, pincr_playerStat_self h2]
  · rw [dgetD_dincr_self h3, dgetD_dincr_ne h1 hbk_ne]
  · rw [pincr_playerStat_self h4, pincr_playerStat_ne h2 bk hbk_ne runner]
  · intro k hktk hkbk
    constructor
    · rw [dgetD_dincr_ne h3 hkbk, dgetD_dincr_ne h1 hktk]
    · intro q
      rw [pincr_playerStat_ne h4 k hkbk q, pincr_playerStat_ne h2 k hktk q]

set_option maxHeartbeats 1600000 in
/-- Claim C6 (amended): a line on which the running-event parser resolves no
runner changes no stolen-base or caught-stealing counter (team or player),
and the line's processing step itself raises nothing on the running path —
the line may still be tallied as a ball in play for the batter context. -/
theorem stepLine_unresolved_runner_preserves_run_keys
    (roster : List String) (strict : Bool) (st st' : GameSt) (line : String)
    (hstep : stepLine roster strict st line = some st')
    (hp : parse_running_event (cleanLineOf line) roster = none) :
    ∀ k ∈ RUN_KEYS, dgetD st'.team k = dgetD st.team k ∧
      ∀ q, playerStat st'.players q k = playerStat st.players q k := by
  intro k hk
  unfold stepLine at hstep
  dsimp only at hstep
  split at hstep
  · simp only [Option.some.injEq] at hstep
    subst hstep
    exact ⟨rfl, fun _ => rfl⟩
  · split at hstep
    · simp only [Option.some.injEq] at hstep
      subst hstep
      exact ⟨rfl, fun _ => rfl⟩
    · rw [runBlock_parse_none hp] at hstep
      dsimp only at hstep
      have hfields := gpScan_fields roster (cleanLineOf line)
        (pyLower (cleanLineOf line)) st
      cases hgb : (get_batter_name (cleanLineOf line) roster).orElse
          (fun _ => (gpScan roster (cleanLineOf line) (pyLower (cleanLineOf line)) st).ctx) with
      | none =>
        rw [hgb] at hstep
        simp only [Option.some.injEq] at hstep
        subst hstep
        rw [hfields.1, hfields.2.1]
        exact ⟨rfl, fun _ => rfl⟩
      | some batter =>
        rw [hgb] at hstep
        dsimp only at hstep
        have hpres := bipBlock_preserves hstep k hk
        constructor
        · rw [hpres.2.2.2.1]
          show dgetD (gpScan roster (cleanLineOf line) (pyLower (cleanLineOf line)) st).team k
            = dgetD st.team k
          rw [hfields.1]
        · intro q
          rw [hpres.2.2.2.2 q]
          show playerStat (gpScan roster (cleanLineOf line)
            (pyLower (cleanLineOf line)) st).players q k = playerStat st.players q k
          rw [hfields.2.1]

set_option maxHeartbeats 1600000 in
/-- Claim C10: within one game-processing pass, a running-event line whose
dedupe key (runner, family key, base key, lowered text) was already seen
changes no stolen-base / caught-stealing counter; a fresh key is recorded in
`running_seen` and steps the family-key and base-bucket counters of the team
and of the runner by exactly one. -/
theorem stepLine_running_dedupe
    (roster : List String) (strict : Bool) (st st' : GameSt) (line : String)
    (runner tk bk : String)
    (hstep : stepLine roster strict st line = some st')
    (hp : parse_running_event (cleanLineOf line) roster = some (runner, tk, bk))
    (hh1 : pyStartsWith (pyLower (cleanLineOf line)) "top " = false)
    (hh2 : pyStartsWith (pyLower (cleanLineOf line)) "bottom " = false) :
    (st.seen.contains (runner, tk, bk, pyLower (cleanLineOf line)) = true →
      ∀ k ∈ RUN_KEYS, dgetD st'.team k = dgetD st.team k ∧
        ∀ q, playerStat st'.players q k = playerStat st.players q k)
    ∧ (st.seen.contains (runner, tk, bk, pyLower (cleanLineOf line)) = false →
      st'.seen.contains (runner, tk, bk, pyLower (cleanLineOf line)) = true ∧
      dgetD st'.team tk = dgetD st.team tk + 1 ∧
      playerStat st'.players runner tk = playerStat st.players runner tk + 1 ∧
      dgetD st'.team bk = dgetD st.team bk + 1 ∧
      playerStat st'.players runner bk = playerStat st.players runner bk + 1) := by
  have hcl : ¬(cleanLineOf line = "") := by
    intro hh
    rw [hh] at hp
    have hnone : parse_running_event "" roster = none := rfl
    rw [hnone] at hp
    exact Option.noConfusion hp
  unfold stepLine at hstep
  rw [if_neg hcl] at hstep
  dsimp only at hstep
  rw [hh1, hh2] at hstep
  simp only [Bool.or_self, Bool.false_eq_true, if_false] at hstep
  have hfields := gpScan_fields roster (cleanLineOf line)
    (pyLower (cleanLineOf line)) st
  set st1 := gpScan roster (cleanLineOf line) (pyLower (cleanLineOf line)) st with hst1
  cases hseen : st.seen.contains (runner, tk, bk, pyLower (cleanLineOf line)) with
  | true =>
    -- duplicate: the running block is a no-op
    refine ⟨?_, fun hfalse => absurd hfalse (by simp)⟩
    intro _ k hk
    have hseen1 : st1.seen.contains (runner, tk, bk, pyLower (cleanLineOf line)) = true := by
      rw [hfields.2.2]; exact hseen
    rw [runBlock_seen hp hseen1] at hstep
    dsimp only at hstep
    cases hgb : (get_batter_name (cleanLineOf line) roster).orElse (fun _ => st1.ctx) with
    | none =>
      rw [hgb] at hstep
      simp only [Option.some.injEq] at hstep
      subst hstep
      rw [hfields.1, hfields.2.1]
      exact ⟨rfl, fun _ => rfl⟩
    | some batter =>
      rw [hgb] at hstep
      dsimp only at hstep
      have hpres := bipBlock_preserves hstep k hk
      constructor
      · rw [hpres.2.2.2.1]
        show dgetD st1.team k = dgetD st.team k
        rw [hfields.1]
      · intro q
        rw [hpres.2.2.2.2 q]
        show playerStat st1.players q k = playerStat st.players q k
        rw [hfields.2.1]
  | false =>
    refine ⟨fun htrue => absurd htrue (by simp), ?_⟩
    intro _
    have hkeys := parse_running_keys hp
    have htk_run : tk ∈ RUN_KEYS := by
      rcases hkeys.1 with h1 | h1 <;> rw [h1] <;> decide
    have hbk_run : bk ∈ RUN_KEYS := by
      rcases hkeys.2 with h2 | h2 <;> rcases hkeys.1 with h1 | h1 <;>
        subst h1 <;> rw [h2] <;> decide
    have hseen1 : st1.seen.contains (runner, tk, bk, pyLower (cleanLineOf line)) = false := by
      rw [hfields.2.2]; exact hseen
    cases hrb : runBlock roster (cleanLineOf line) (pyLower (cleanLineOf line)) st1 with
    | none => rw [hrb] at hstep; exact Option.noConfusion hstep
    | some st2 =>
      rw [hrb] at hstep
      dsimp only at hstep
      have hfresh := runBlock_fresh hp hseen1 hrb
      -- facts at st2 relative to st1 (hence st)
      have hs2team_tk : dgetD st2.team tk = dgetD st.team tk + 1 := by
        rw [hfresh.2.2.2.1, hfields.1]
      have hs2pl_tk : playerStat st2.players runner tk
          = playerStat st.players runner tk + 1 := by
        rw [hfresh.2.2.2.2.1, hfields.2.1]
      have hs2team_bk : dgetD st2.team bk = dgetD st.team bk + 1 := by
        rw [hfresh.2.2.2.2.2.1, hfields.1]
      have hs2pl_bk : playerStat st2.players runner bk
          = playerStat st.players runner bk + 1 := by
        rw [hfresh.2.2.2.2.2.2.1, hfields.2.1]
      have hs2seen : st2.seen.contains (runner, tk, bk, pyLower (cleanLineOf line)) = true := by
        rw [hfresh.1, hfields.2.2]
        simp [List.contains_eq_any_beq]
      cases hgb : (get_batter_name (cleanLineOf line) roster).orElse (fun _ => st2.ctx) with
      | none =>
        rw [hgb] at hstep
        simp only [Option.some.injEq] at hstep
        subst hstep
        exact ⟨hs2seen, hs2team_tk, hs2pl_tk, hs2team_bk, hs2pl_bk⟩
      | some batter =>
        rw [hgb] at hstep
        dsimp only at hstep
        have hpres_tk := bipBlock_preserves hstep tk htk_run
        have hpres_bk := bipBlock_preserves hstep bk hbk_run
        refine ⟨?_, ?_, ?_, ?_, ?_⟩
        · rw [hpres_tk.1]; exact hs2seen
        · rw [hpres_tk.2.2.2.1]; exact hs2team_tk
        · rw [hpres_tk.2.2.2.2 runner]; exact hs2pl_tk
        · rw [hpres_bk.2.2.2.1]; exact hs2team_bk
        · rw [hpres_bk.2.2.2.2 runner]; exact hs2pl_bk

/-! ## Dedup / rollback theorems on `processGame` -/

/-- Claim C1: after a successful merge of a transcript, submitting the
identical transcript again for the same team is rejected as a duplicate
before any aggregation, and the season state — every numeric total, the
games-played count, the ledger — is returned unchanged. -/
theorem processGame_idempotent (st : SeasonSt) (team_key : String)
    (roster : List String) (strict : Bool) (raw : String) (st1 : SeasonSt)
    (h : processGame st team_key roster strict raw = (.ok, st1)) :
    processGame st1 team_key roster strict raw = (.duplicate, st1) := by
  unfold processGame at h ⊢
  dsimp only at h ⊢
  split at h
  · simp at h
  · split at h
    · simp at h
    · rename_i hraw hroster
      rw [if_neg hraw, if_neg hroster]
      split at h
      · simp at h
      · split at h
        · simp at h
        · simp only [Prod.mk.injEq] at h
          have hst1 : st1.processed = st.processed ++ [game_key_from_pbp team_key raw] := by
            rw [← h.2]
          have hmem : st1.processed.contains (game_key_from_pbp team_key raw) = true := by
            rw [hst1]
            simp [List.contains_eq_any_beq]
          rw [if_pos hmem]

/-- Claim C7: the dedup mark is rolled back when aggregation fails, and a
content hash is in the ledger after the call exactly when the merge fully
succeeded or the hash was already there: a hash is only consumed by a
fully successful merge. -/
theorem processGame_rollback (st : SeasonSt) (team_key : String)
    (roster : List String) (strict : Bool) (raw : String)
    (o : Outcome) (st2 : SeasonSt)
    (h : processGame st team_key roster strict raw = (o, st2)) :
    (o = .failed → st2 = st) ∧
    (o = .ok → game_key_from_pbp team_key raw ∈ st2.processed) ∧
    (game_key_from_pbp team_key raw ∈ st2.processed ↔
      (o = .ok ∨ game_key_from_pbp team_key raw ∈ st.processed)) := by
  unfold processGame at h
  dsimp only at h
  split at h
  · obtain ⟨ho, hst⟩ := Prod.mk.injEq .. ▸ h
    subst hst
    rw [← ho]
    refine ⟨fun hf => absurd hf (by simp), fun hok => absurd hok (by simp), ?_⟩
    exact ⟨fun hm => Or.inr hm, fun hm => hm.elim (fun hk => absurd hk (by simp)) id⟩
  · split at h
    · obtain ⟨ho, hst⟩ := Prod.mk.injEq .. ▸ h
      subst hst
      rw [← ho]
      refine ⟨fun hf => absurd hf (by simp), fun hok => absurd hok (by simp), ?_⟩
      exact ⟨fun hm => Or.inr hm, fun hm => hm.elim (fun hk => absurd hk (by simp)) id⟩
    · split at h
      · rename_i hdup
        obtain ⟨ho, hst⟩ := Prod.mk.injEq .. ▸ h
        subst hst
        rw [← ho]
        have hmem : game_key_from_pbp team_key raw ∈ st.processed := by
          simpa [List.contains_eq_any_beq] using hdup
        refine ⟨fun hf => absurd hf (by simp), fun hok => hmem, ?_⟩
        exact ⟨fun _ => Or.inr hmem, fun _ => hmem⟩
      · split at h
        · obtain ⟨ho, hst⟩ := Prod.mk.injEq .. ▸ h
          subst hst
          rw [← ho]
          refine ⟨fun _ => rfl, fun hok => absurd hok (by simp), ?_⟩
          exact ⟨fun hm => Or.inr hm,
            fun hm => hm.elim (fun hk => absurd hk (by simp)) id⟩
        · obtain ⟨ho, hst⟩ := Prod.mk.injEq .. ▸ h
          subst hst
          rw [← ho]
          refine ⟨fun hf => absurd hf (by simp), fun _ => by simp, ?_⟩
          exact ⟨fun _ => Or.inl rfl, fun _ => by simp⟩

/-! ## Batted-ball type: the bunt rule (claim C2) -/

/-- Claim C2 counterexample: a ball-in-play line containing "bunt" is NOT
assigned type ground ball — `classify_ball_type` returns no type at all for
bunts (the engine counts bunts in the separate `Bunts` bucket instead). -/
theorem classify_bunt_counterexample :
    strContains "he bunts to the pitcher" "bunt" = true ∧
      is_ball_in_play "he bunts to the pitcher" = true ∧
      ¬((classify_ball_type "he bunts to the pitcher").1 = some "GB") := by
  refine ⟨by decide, by decide, by decide⟩

/-- Claim C2 (amended): for every line, if "bunt" occurs anywhere then the
batted-ball type classifier assigns NO ground-ball/fly-ball type (confidence
value 3), and this rule takes precedence over every other type rule —
whatever other phrases the line contains. -/
theorem classify_ball_type_bunt (line_lower : String)
    (h : strContains line_lower "bunt" = true) :
    classify_ball_type line_lower = (none, 3) := by
  unfold classify_ball_type
  rw [if_pos h]

theorem classify_ball_type_bunt_witness :
    strContains "he bunts, grounds out to shortstop" "bunt" = true ∧
      classify_ball_type "he bunts, grounds out to shortstop" = (none, 3) :=
  ⟨by decide, classify_ball_type_bunt "he bunts, grounds out to shortstop" (by decide)⟩

/-! ## The unknown-location KeyError (claim C3) -/

/-- The season state as first loaded for a roster with no stored totals. -/
def seasonStart (roster : List String) : SeasonSt :=
  { team := empty_stat_dict
    players := roster.map (fun p => (p, empty_stat_dict))
    gamesPlayed := 0
    processed := []
    archived := [] }

/-- Claim C3 (code bug): `"J Smith reaches on error."` is a ball in play with
a resolved batter and no location match, strict mode off — the spec says it
is bucketed as "unknown location" without error, but the code assigns
`loc = "UNKNOWN"` while `"UNKNOWN"` is not a key of `empty_stat_dict`
(`LOCATION_KEYS` has no UNKNOWN entry), so `game_team[loc] += 1` raises
`KeyError` and the whole transcript fails and is rolled back. -/
theorem unknown_location_keyerror :
    is_ball_in_play (pyLower (cleanLineOf "J Smith reaches on error.")) = true ∧
      get_batter_name (cleanLineOf "J Smith reaches on error.") ["J Smith"]
        = some "J Smith" ∧
      (classify_location (pyLower (cleanLineOf "J Smith reaches on error.")) false).1
        = none ∧
      dget empty_stat_dict "UNKNOWN" = none ∧
      processGame (seasonStart ["J Smith"]) "team" ["J Smith"] false
        "J Smith reaches on error." = (.failed, seasonStart ["J Smith"]) := by
  refine ⟨by decide, by decide, by decide, by decide, by decide⟩

/-! ## Base buckets of running events (claim C5) -/

/-- Claim C5 counterexample: the stolen-base pattern cannot capture "home"
(a steal of home is not matched at all), `normalize_base_bucket` maps a
"home" base token to the bare family key rather than appending "-H", and no
"-H" sub-bucket exists among the running-event stat keys. -/
theorem steal_home_counterexample :
    normalize_base_bucket "SB" (some "home") = "SB" ∧
      RUN_KEYS.contains "SB-H" = false ∧
      RUN_KEYS.contains "CS-H" = false ∧
      parse_running_event "J Smith steals home" ["J Smith"] = none := by
  refine ⟨by decide, by decide, by decide, by decide⟩

/-- Claim C5 (amended): the SB/CS patterns capture only 2nd/second/3rd/third
(never home); a captured 2nd/second becomes a "-2B" suffix and 3rd/third a
"-3B" suffix on the family key; with no captured base (or a "home" token)
the bare family key is used, and no "-H" key is ever produced. -/
theorem running_base_buckets :
    (∀ pfx : String, normalize_base_bucket pfx none = pfx) ∧
    (∀ pfx : String, normalize_base_bucket pfx (some "home") = pfx) ∧
    (∀ (pfx b : String),
      pyStrip (pyStripParens (pyLower (pyStrip b))) = "2nd" ∨
        pyStrip (pyStripParens (pyLower (pyStrip b))) = "second" →
      normalize_base_bucket pfx (some b) = pfx ++ "-2B") ∧
    (∀ (pfx b : String),
      pyStrip (pyStripParens (pyLower (pyStrip b))) = "3rd" ∨
        pyStrip (pyStripParens (pyLower (pyStrip b))) = "third" →
      normalize_base_bucket pfx (some b) = pfx ++ "-3B") ∧
    (∀ (line : String) (i : Nat) (b : String), sbSearch line = some (i, b) →
      lcl b.data = "2nd".data ∨ lcl b.data = "second".data ∨
        lcl b.data = "3rd".data ∨ lcl b.data = "third".data) ∧
    (∀ (line : String) (i : Nat) (b : String), csSearch line = some (i, b) →
      lcl b.data = "2nd".data ∨ lcl b.data = "second".data ∨
        lcl b.data = "3rd".data ∨ lcl b.data = "third".data) ∧
    (∀ (line : String) (roster : List String) (r tk bk : String),
      parse_running_event line roster = some (r, tk, bk) →
      (tk = "SB" ∨ tk = "CS") ∧ (bk = tk ++ "-2B" ∨ bk = tk ++ "-3B")) := by
  refine ⟨fun pfx => rfl, ?_, ?_, ?_,
    fun line i b h => sbSearch_base h, fun line i b h => csSearch_base h,
    fun line roster r tk bk h => parse_running_keys h⟩
  · intro pfx
    unfold normalize_base_bucket
    dsimp only
    rw [show pyStrip (pyStripParens (pyLower (pyStrip "home"))) = "home" from by decide]
    simp
  · intro pfx b h
    unfold normalize_base_bucket
    dsimp only
    rcases h with h | h <;> rw [h] <;> simp
  · intro pfx b h
    unfold normalize_base_bucket
    dsimp only
    rcases h with h | h <;> rw [h] <;> simp

theorem running_base_buckets_witness :
    normalize_base_bucket "SB" (some "2ND ") = "SB-2B" ∧
      (("SB" = "SB" ∨ "SB" = "CS") ∧
        ("SB-3B" = "SB" ++ "-2B" ∨ "SB-3B" = "SB" ++ "-3B")) :=
  ⟨running_base_buckets.2.2.1 "SB" "2ND " (by decide),
    running_base_buckets.2.2.2.2.2.2 "J Smith steals 3rd" ["J Smith"]
      "J Smith" "SB" "SB-3B" (by decide)⟩

/-! ## The roster resolver contract (claim C4) -/

theorem mem_insertLenDesc {x y : String} {l : List String} :
    y ∈ insertLenDesc x l ↔ y = x ∨ y ∈ l := by
  induction l with
  | nil => simp [insertLenDesc]
  | cons z zs ih =>
    unfold insertLenDesc
    split <;> simp only [List.mem_cons, ih] <;> tauto

theorem mem_sortByLenDesc {y : String} {l : List String} :
    y ∈ sortByLenDesc l ↔ y ∈ l := by
  induction l with
  | nil => simp [sortByLenDesc]
  | cons x xs ih =>
    unfold sortByLenDesc
    rw [mem_insertLenDesc, ih]
    simp

/-- The final token of a roster entry (used to word claim C4's unique
last-name rule). -/
def lastTokenOf (r : String) : String := ((pySplitWs r).getLast?).getD ""

/-- The Roster Resolver exactly as claim C4 words it: if the fragment's first
two tokens exactly match a roster entry, return it; otherwise, if exactly one
roster entry's final token equals the fragment's first token, return that
entry; two or more collisions yield no match. -/
def claim_resolver (frag : String) (roster : List String) : Option String :=
  match pySplitWs frag with
  | [] => none
  | p0 :: rest =>
    let firstTwo :=
      match rest with
      | p1 :: _ =>
        if roster.contains (p0 ++ " " ++ p1) then some (p0 ++ " " ++ p1) else none
      | [] => none
    match firstTwo with
    | some r => some r
    | none =>
      match roster.filter (fun r => lastTokenOf r == p0) with
      | [r] => some r
      | _ => none

/-- Claim C4 counterexample: for the fragment "Smith grounds out to
shortstop" and roster containing exactly one entry with final token "Smith",
the claim's algorithm resolves "J Smith", but `get_batter_name` resolves
nothing — the code matches roster entries only as prefixes of the fragment
(or first+last token), never by a unique last name. -/
theorem resolver_counterexample :
    get_batter_name "Smith grounds out to shortstop" ["J Smith"] = none ∧
      claim_resolver "Smith grounds out to shortstop" ["J Smith"] = some "J Smith" := by
  refine ⟨by decide, by decide⟩

/-- Claim C4 (amended): after cleaning (parenthetical removal, whitespace
collapse) and the first-token name check, `get_batter_name` returns either a
cleaned roster entry that the fragment equals or starts with (entry followed
by a space), or the fragment's first token joined with its last token when that
exact string is a roster member; when no roster entry prefix-matches and the
first+last-token string is not on the roster it returns nothing — a last
name alone never resolves, even when unique. -/
theorem get_batter_name_characterization (line : String) (roster : List String) :
    (∀ r, get_batter_name line roster = some r →
      (r ∈ rosterClean roster ∧
        (batterClean line = r ∨ (r ++ " ").data.isPrefixOf (batterClean line).data = true)) ∨
      (roster.contains r = true ∧
        r = ((pySplitWs (batterClean line)).headD "") ++ " " ++
          (((pySplitWs (batterClean line)).getLast?).getD ""))) ∧
    ((∀ r ∈ rosterClean roster,
        ¬(batterClean line = r ∨ (r ++ " ").data.isPrefixOf (batterClean line).data = true)) →
      roster.contains (((pySplitWs (batterClean line)).headD "") ++ " " ++
        (((pySplitWs (batterClean line)).getLast?).getD "")) = false →
      get_batter_name line roster = none) := by
  constructor
  · intro r h
    unfold get_batter_name at h
    split at h
    · simp at h
    · split at h
      · simp at h
      · split at h
        · simp at h
        · rename_i p0 tail hparts
          split at h
          · simp at h
          · split at h
            · rename_i rname hfind
              simp only [Option.some.injEq] at h
              subst h
              left
              have hmem : rname ∈ sortByLenDesc (rosterClean roster) :=
                List.mem_of_find?_eq_some hfind
              have hpred := List.find?_some hfind
              refine ⟨mem_sortByLenDesc.mp hmem, ?_⟩
              simp only [Bool.or_eq_true, beq_iff_eq] at hpred
              rcases hpred with hp | hp
              · left; exact hp
              · right; exact hp
            · split at h
              · split at h
                · rename_i hcand
                  simp only [Option.some.injEq] at h
                  subst h
                  right
                  refine ⟨hcand, ?_⟩
                  have hhead : (pySplitWs (batterClean line)).headD "" = p0 := by
                    rw [hparts]
                    rfl
                  rw [hhead]
                · simp at h
              · simp at h
  · intro hno hcand
    unfold get_batter_name
    split
    · rfl
    · split
      · rfl
      · split
        · rfl
        · rename_i p0 tail hparts
          split
          · rfl
          · have hfind : (sortByLenDesc (rosterClean roster)).find?
                (fun rname => batterClean line == rname ||
                  (rname ++ " ").data.isPrefixOf (batterClean line).data) = none := by
              rw [List.find?_eq_none]
              intro x hx
              have hxm : x ∈ rosterClean roster := mem_sortByLenDesc.mp hx
              have hnx := hno x hxm
              simp only [Bool.or_eq_true, beq_iff_eq]
              tauto
            simp only [hfind]
            split
            · have hhead : (pySplitWs (batterClean line)).headD "" = p0 := by
                rw [hparts]
                rfl
              rw [hhead] at hcand
              simp only [hcand]
              simp
            · rfl

theorem get_batter_name_characterization_witness :
    ((("J Smith" : String) ∈ rosterClean ["J Smith"] ∧
        (batterClean "J Smith grounds out to shortstop" = "J Smith" ∨
          ("J Smith" ++ " ").data.isPrefixOf
            (batterClean "J Smith grounds out to shortstop").data = true)) ∨
      (["J Smith"].contains "J Smith" = true ∧
        "J Smith" = ((pySplitWs (batterClean "J Smith grounds out to shortstop")).headD "")
          ++ " " ++
          (((pySplitWs (batterClean "J Smith grounds out to shortstop")).getLast?).getD ""))) ∧
      get_batter_name "Smith flies out" ["J Smith"] = none :=
  ⟨(get_batter_name_characterization "J Smith grounds out to shortstop" ["J Smith"]).1
      "J Smith" (by decide),
    (get_batter_name_characterization "Smith flies out" ["J Smith"]).2
      (by decide) (by decide)⟩

/-! ## Roster archival lemmas (claim C8) -/

theorem contains_iff_mem {l : List String} {a : String} :
    l.contains a = true ↔ a ∈ l := by
  rw [List.contains_eq_any_beq, List.any_eq_true]
  constructor
  · rintro ⟨x, hx, he⟩
    rw [beq_iff_eq] at he
    rwa [he]
  · intro h
    exact ⟨a, h, by simp⟩

theorem pget_append_left {ps : PlayerDict} {p : String} (qs : PlayerDict)
    (h : (pget ps p).isSome = true) : pget (ps ++ qs) p = pget ps p := by
  induction ps with
  | nil => simp [pget] at h
  | cons kv rest ih =>
    by_cases hk : kv.1 = p
    · simp [pget, List.find?, hk]
    · have hb : (kv.1 == p) = false := by simp [hk]
      simp only [pget, List.find?, hb, List.cons_append] at h ⊢
      exact ih h

theorem pget_map_ensure (raw : PlayerDict) (p : String) :
    pget (raw.map (fun pr => (pr.1, ensure_all_keys pr.2))) p
      = (pget raw p).map ensure_all_keys := by
  induction raw with
  | nil => simp [pget]
  | cons kv rest ih =>
    by_cases hk : kv.1 = p
    · simp [pget, List.find?, hk]
    · have hb : (kv.1 == p) = false := by simp [hk]
      simp only [pget, List.find?, hb, List.map_cons] at ih ⊢
      exact ih

theorem mem_keys_of_pget {ps : PlayerDict} {p : String}
    (h : (pget ps p).isSome = true) : p ∈ ps.map (fun pr => pr.1) := by
  induction ps with
  | nil => simp [pget] at h
  | cons kv rest ih =>
    by_cases hk : kv.1 = p
    · simp [hk]
    · have hb : (kv.1 == p) = false := by simp [hk]
      simp only [pget, List.find?, hb] at h
      simp only [List.map_cons, List.mem_cons]
      exact Or.inr (ih h)

theorem pget_foldl_addMissing (roster : List String) (sp : PlayerDict) (p : String)
    (h : (pget sp p).isSome = true) :
    pget (roster.foldl
      (fun ps q => if (pget ps q).isSome then ps else ps ++ [(q, empty_stat_dict)]) sp) p
      = pget sp p := by
  induction roster generalizing sp with
  | nil => rfl
  | cons q qs ih =>
    simp only [List.foldl_cons]
    by_cases hq : (pget sp q).isSome = true
    · rw [if_pos hq]
      exact ih sp h
    · rw [if_neg hq]
      have h2 : (pget (sp ++ [(q, empty_stat_dict)]) p).isSome = true := by
        rw [pget_append_left _ h]
        exact h
      rw [ih _ h2, pget_append_left _ h]

theorem dget_append_left {d : StatDict} {k : String} (l : StatDict)
    (h : (dget d k).isSome = true) : dget (d ++ l) k = dget d k := by
  induction d with
  | nil => simp [dget] at h
  | cons kv rest ih =>
    by_cases hk : kv.1 = k
    · simp [dget, List.find?, hk]
    · have hb : (kv.1 == k) = false := by simp [hk]
      simp only [dget, List.find?, hb, List.cons_append] at h ⊢
      exact ih h

theorem dget_dsetdefault (d : StatDict) (k k' : String) (v : Nat)
    (h : (dget d k).isSome = true) : dget (dsetdefault d k' v) k = dget d k := by
  unfold dsetdefault
  split
  · rfl
  · exact dget_append_left _ h

theorem dget_ensure_all_keys {d : StatDict} {k : String}
    (h : (dget d k).isSome = true) : dget (ensure_all_keys d) k = dget d k := by
  unfold ensure_all_keys
  generalize ALL_KEYS = ks
  induction ks generalizing d with
  | nil => rfl
  | cons k' ks ih =>
    simp only [List.foldl_cons]
    have h2 : (dget (dsetdefault d k' 0) k).isSome = true := by
      rw [dget_dsetdefault _ _ _ _ h]
      exact h
    rw [ih h2, dget_dsetdefault _ _ _ _ h]

/-- The per-player record loaded for a player stored in the DB totals. -/
theorem pget_loadSeasonPlayers (raw : PlayerDict) (roster : List String) (p : String)
    (h : (pget raw p).isSome = true) :
    pget (loadSeasonPlayers raw roster) p = (pget raw p).map ensure_all_keys := by
  unfold loadSeasonPlayers
  dsimp only
  have hm : (pget (raw.map (fun pr => (pr.1, ensure_all_keys pr.2))) p).isSome = true := by
    rw [pget_map_ensure]
    cases hr : pget raw p with
    | none => rw [hr] at h; simp at h
    | some d => simp
  rw [pget_foldl_addMissing _ _ _ hm, pget_map_ensure]

/-- Claim C8: saving an updated roster archives every player recorded in the
prior season totals who is absent from the new roster, with their stored
record untouched (only completed with missing zero keys), and removes from
the archived set every previously archived player who reappears. -/
theorem roster_archival (raw_players : PlayerDict)
    (db_archived new_roster : List String) (p : String) :
    ((pget raw_players p).isSome = true → p ∉ new_roster →
      p ∈ (saveRoster raw_players db_archived new_roster).2 ∧
      pget (saveRoster raw_players db_archived new_roster).1 p
        = (pget raw_players p).map ensure_all_keys ∧
      (∀ k, (dget ((pget raw_players p).getD []) k).isSome = true →
        dget ((pget (saveRoster raw_players db_archived new_roster).1 p).getD []) k
          = dget ((pget raw_players p).getD []) k)) ∧
    (p ∈ db_archived → p ∈ new_roster →
      p ∉ (saveRoster raw_players db_archived new_roster).2) := by
  have hcontains : new_roster.contains p = decide (p ∈ new_roster) := by
    cases hd : decide (p ∈ new_roster) with
    | true =>
      rw [contains_iff_mem.mpr (of_decide_eq_true hd)]
    | false =>
      cases hc : new_roster.contains p with
      | false => rfl
      | true =>
        exact absurd (decide_eq_true (contains_iff_mem.mp hc)) (by simp [hd])
  constructor
  · intro hsome hnot
    have hcf : new_roster.contains p = false := by
      rw [hcontains]
      exact decide_eq_false hnot
    have hload := pget_loadSeasonPlayers raw_players new_roster p hsome
    have hload_some : (pget (loadSeasonPlayers raw_players new_roster) p).isSome = true := by
      rw [hload]
      cases hr : pget raw_players p with
      | none => rw [hr] at hsome; simp at hsome
      | some d => simp
    refine ⟨?_, ?_, ?_⟩
    · show p ∈ (let season_players := loadSeasonPlayers raw_players new_roster
        let removed := (season_players.map (fun pr => pr.1)).filter
          (fun q => !(new_roster.contains q))
        let archived1 := db_archived ++ removed.filter (fun q => !(db_archived.contains q))
        let archived := archived1.filter (fun q => !(new_roster.contains q))
        let season_players2 := new_roster.foldl
          (fun ps q => if (pget ps q).isSome then ps else ps ++ [(q, empty_stat_dict)])
          season_players
        (season_players2, archived)).2
      dsimp only
      rw [List.mem_filter]
      refine ⟨?_, by simpa using hnot⟩
      rw [List.mem_append]
      by_cases hdb : p ∈ db_archived
      · exact Or.inl hdb
      · refine Or.inr ?_
        rw [List.mem_filter]
        constructor
        · rw [List.mem_filter]
          exact ⟨mem_keys_of_pget hload_some, by simpa using hnot⟩
        · simpa using hdb
    · show pget ((let season_players := loadSeasonPlayers raw_players new_roster
        let removed := (season_players.map (fun pr => pr.1)).filter
          (fun q => !(new_roster.contains q))
        let archived1 := db_archived ++ removed.filter (fun q => !(db_archived.contains q))
        let archived := archived1.filter (fun q => !(new_roster.contains q))
        let season_players2 := new_roster.foldl
          (fun ps q => if (pget ps q).isSome then ps else ps ++ [(q, empty_stat_dict)])
          season_players
        (season_players2, archived)).1) p = (pget raw_players p).map ensure_all_keys
      dsimp only
      rw [pget_foldl_addMissing _ _ _ hload_some]
      exact hload
    · intro k hk
      have hres : pget (saveRoster raw_players db_archived new_roster).1 p
          = (pget raw_players p).map ensure_all_keys := by
        show pget ((let season_players := loadSeasonPlayers raw_players new_roster
          let removed := (season_players.map (fun pr => pr.1)).filter
            (fun q => !(new_roster.contains q))
          let archived1 := db_archived ++ removed.filter (fun q => !(db_archived.contains q))
          let archived := archived1.filter (fun q => !(new_roster.contains q))
          let season_players2 := new_roster.foldl
            (fun ps q => if (pget ps q).isSome then ps else ps ++ [(q, empty_stat_dict)])
            season_players
          (season_players2, archived)).1) p = (pget raw_players p).map ensure_all_keys
        dsimp only
        rw [pget_foldl_addMissing _ _ _ hload_some]
        exact hload
      rw [hres]
      cases hr : pget raw_players p with
      | none => rw [hr] at hsome; simp at hsome
      | some d =>
        rw [hr] at hk
        simp only [Option.map_some', Option.getD_some]
        exact dget_ensure_all_keys (by simpa using hk)
  · intro hdb hmem
    have hct : new_roster.contains p = true := contains_iff_mem.mpr hmem
    intro habs
    have : p ∈ (let season_players := loadSeasonPlayers raw_players new_roster
        let removed := (season_players.map (fun pr => pr.1)).filter
          (fun q => !(new_roster.contains q))
        let archived1 := db_archived ++ removed.filter (fun q => !(db_archived.contains q))
        let archived := archived1.filter (fun q => !(new_roster.contains q))
        let season_players2 := new_roster.foldl
          (fun ps q => if (pget ps q).isSome then ps else ps ++ [(q, empty_stat_dict)])
          season_players
        (season_players2, archived)).2 := habs
    dsimp only at this
    rw [List.mem_filter] at this
    rcases this with ⟨-, hfalse⟩
    rw [hct] at hfalse
    exact Bool.noConfusion hfalse

/-! ## Pitching attribution: no cross-half-inning leakage (claim C9) -/

theorem pitch_outs_only (mid : List PitchEvent) :
    ∀ s : PitchSt, (∀ e ∈ mid, ∃ n, e = PitchEvent.outsMark n) → s.active = none →
      (mid.foldl pitchStep s).active = none ∧
        ∀ q, q ≠ UNKNOWN_PITCHER →
          dgetD (mid.foldl pitchStep s).totals q = dgetD s.totals q := by
  induction mid with
  | nil => exact fun s _ hs => ⟨hs, fun q _ => rfl⟩
  | cons e rest ih =>
    intro s hmid hs
    obtain ⟨n, rfl⟩ := hmid e (List.mem_cons_self e rest)
    have hrest : ∀ e ∈ rest, ∃ n, e = PitchEvent.outsMark n :=
      fun e he => hmid e (List.mem_cons_of_mem _ he)
    have hstep : (pitchStep s (.outsMark n)).active = none ∧
        ∀ q, q ≠ UNKNOWN_PITCHER →
          dgetD (pitchStep s (.outsMark n)).totals q = dgetD s.totals q := by
      unfold pitchStep
      dsimp only
      split
      · rw [hs]
        dsimp only
        split
        · exact ⟨rfl, fun q hq => dgetD_dset_ne _ _ _ _ hq⟩
        · exact ⟨rfl, fun q _ => rfl⟩
      · exact ⟨hs, fun q _ => rfl⟩
    have hind := ih (pitchStep s (.outsMark n)) hrest hstep.1
    simp only [List.foldl_cons]
    exact ⟨hind.1, fun q hq => by rw [hind.2 q hq, hstep.2 q hq]⟩

/-- Claim C9 (modelled from the spec: the pitching state machine is absent
from src/app.py, so it is embedded from §4.4 of the design): outs recorded
after a half-inning header and before the next pitcher is named are never
attributed to any previously active pitcher — the header clears the pending
buffer and the active pitcher, and at the terminal out count (3) with the
pitcher still unknown the pending buffer is flushed to the unknown-pitcher
sentinel, never carried into the next half-inning. -/
theorem pitching_no_cross_inning (pre mid : List PitchEvent) (o : Bool) (A B : String)
    (hAB : A ≠ B) (hAU : A ≠ UNKNOWN_PITCHER)
    (hmid : ∀ e ∈ mid, ∃ n, e = PitchEvent.outsMark n) :
    dgetD (runPitch (pre ++ PitchEvent.header o ::
        (mid ++ [PitchEvent.named B]))).totals A = dgetD (runPitch pre).totals A ∧
    (∀ (s : PitchSt) (ob : Bool), (pitchStep s (.header ob)).pendingOuts = 0 ∧
      (pitchStep s (.header ob)).active = none) ∧
    (∀ (s : PitchSt) (n : Nat), s.defendingOurs = true → s.active = none → 3 ≤ n →
      (pitchStep s (.outsMark n)).pendingOuts = 0 ∧
      dgetD (pitchStep s (.outsMark n)).totals UNKNOWN_PITCHER
        = dgetD s.totals UNKNOWN_PITCHER + (s.pendingOuts + (n - s.lastOuts))) := by
  refine ⟨?_, fun s ob => ⟨rfl, rfl⟩, ?_⟩
  · have hsplit : pre ++ PitchEvent.header o :: (mid ++ [PitchEvent.named B])
        = ((pre ++ [PitchEvent.header o]) ++ mid) ++ [PitchEvent.named B] := by
      simp
    rw [hsplit]
    unfold runPitch
    rw [List.foldl_append, List.foldl_append, List.foldl_append]
    simp only [List.foldl_cons, List.foldl_nil]
    have s1a : (pitchStep (List.foldl pitchStep initPitchSt pre)
        (PitchEvent.header o)).active = none := rfl
    have houts := pitch_outs_only mid
      (pitchStep (List.foldl pitchStep initPitchSt pre) (PitchEvent.header o)) hmid s1a
    have hstepB : dgetD (pitchStep (List.foldl pitchStep
          (pitchStep (List.foldl pitchStep initPitchSt pre) (PitchEvent.header o)) mid)
        (PitchEvent.named B)).totals A
        = dgetD (List.foldl pitchStep
          (pitchStep (List.foldl pitchStep initPitchSt pre) (PitchEvent.header o)) mid).totals A :=
      dgetD_dset_ne _ _ _ _ hAB
    rw [hstepB, houts.2 A hAU]
    rfl
  · intro s n hours hact h3
    unfold pitchStep
    rw [hours, hact]
    dsimp only
    rw [if_pos rfl, if_pos h3]
    exact ⟨rfl, dgetD_dset_self _ _ _⟩

theorem pitching_no_cross_inning_witness :
    dgetD (runPitch ([PitchEvent.header true, PitchEvent.named "A", PitchEvent.outsMark 3]
        ++ PitchEvent.header true ::
        ([PitchEvent.outsMark 2] ++ [PitchEvent.named "B"]))).totals "A"
      = dgetD (runPitch
        [PitchEvent.header true, PitchEvent.named "A", PitchEvent.outsMark 3]).totals "A" ∧
    dgetD (runPitch
      [PitchEvent.header true, PitchEvent.named "A", PitchEvent.outsMark 3]).totals "A" = 3 :=
  ⟨(pitching_no_cross_inning
      [PitchEvent.header true, PitchEvent.named "A", PitchEvent.outsMark 3]
      [PitchEvent.outsMark 2] true "A" "B" (by decide) (by decide)
      (fun e he => ⟨2, List.mem_singleton.mp he⟩)).1,
    by decide⟩

/-! ## Remaining claim witnesses -/

theorem processGame_idempotent_witness :
    processGame (seasonStart ["J Smith"]) "team" ["J Smith"] false
        "J Smith grounds out to shortstop." =
      (.ok, (processGame (seasonStart ["J Smith"]) "team" ["J Smith"] false
        "J Smith grounds out to shortstop.").2) ∧
    processGame (processGame (seasonStart ["J Smith"]) "team" ["J Smith"] false
        "J Smith grounds out to shortstop.").2 "team" ["J Smith"] false
        "J Smith grounds out to shortstop." =
      (.duplicate, (processGame (seasonStart ["J Smith"]) "team" ["J Smith"] false
        "J Smith grounds out to shortstop.").2) :=
  ⟨by decide,
    processGame_idempotent (seasonStart ["J Smith"]) "team" ["J Smith"] false
      "J Smith grounds out to shortstop."
      (processGame (seasonStart ["J Smith"]) "team" ["J Smith"] false
        "J Smith grounds out to shortstop.").2 (by decide)⟩

theorem processGame_rollback_witness :
    (processGame (seasonStart ["J Smith"]) "team" ["J Smith"] false
      "J Smith reaches on error.").2 = seasonStart ["J Smith"] :=
  (processGame_rollback (seasonStart ["J Smith"]) "team" ["J Smith"] false
      "J Smith reaches on error." Outcome.failed
      (processGame (seasonStart ["J Smith"]) "team" ["J Smith"] false
        "J Smith reaches on error.").2 (by decide)).1 rfl

theorem stepLine_unresolved_witness :
    dgetD ((stepLine ["J Smith"] false (initGameSt ["J Smith"])
        "Jones caught stealing 2nd").getD (initGameSt ["J Smith"])).team "SB"
      = dgetD (initGameSt ["J Smith"]).team "SB" :=
  ((stepLine_unresolved_runner_preserves_run_keys ["J Smith"] false (initGameSt ["J Smith"])
      ((stepLine ["J Smith"] false (initGameSt ["J Smith"])
        "Jones caught stealing 2nd").getD (initGameSt ["J Smith"]))
      "Jones caught stealing 2nd" (by decide) (by decide)) "SB" (by decide)).1

/-- A game state whose `running_seen` already holds the dedupe key of the
line "J Smith steals 2nd" (used to witness the duplicate-line case). -/
def seededSt : GameSt :=
  { team := empty_stat_dict
    players := [("J Smith", empty_stat_dict)]
    gp := []
    seen := [("J Smith", "SB", "SB-2B", "j smith steals 2nd")]
    ctx := none }

theorem stepLine_running_dedupe_witness :
    dgetD ((stepLine ["J Smith"] false seededSt
        "J Smith steals 2nd").getD (initGameSt ["J Smith"])).team "SB"
      = dgetD seededSt.team "SB" :=
  ((stepLine_running_dedupe ["J Smith"] false seededSt
      ((stepLine ["J Smith"] false seededSt
        "J Smith steals 2nd").getD (initGameSt ["J Smith"]))
      "J Smith steals 2nd" "J Smith" "SB" "SB-2B"
      (by decide) (by decide) (by decide) (by decide)).1 (by decide) "SB" (by decide)).1

/-- Claim C6 counterexample: the line "Jones caught stealing 2nd, out at
second, shortstop makes the play" matches the caught-stealing pattern, the
runner resolves to nobody on roster ["J Smith"], and still a team counter
changes for that line: with the batter context set by a preceding at-bat
line, the ball-in-play branch books the line to shortstop, raising the
team SS count from 0 to 1. -/
theorem running_unresolved_counterexample :
    parse_running_event
        (cleanLineOf "Jones caught stealing 2nd, out at second, shortstop makes the play")
        ["J Smith"] = none ∧
      (csSearch (pyStrip (cleanLineOf
        "Jones caught stealing 2nd, out at second, shortstop makes the play"))).isSome
        = true ∧
      (processGame (seasonStart ["J Smith"]) "team" ["J Smith"] false
        "J Smith at bat\nJones caught stealing 2nd, out at second, shortstop makes the play").1
        = .ok ∧
      dgetD (processGame (seasonStart ["J Smith"]) "team" ["J Smith"] false
        "J Smith at bat\nJones caught stealing 2nd, out at second, shortstop makes the play").2.team
        "SS" = 1 ∧
      dgetD (seasonStart ["J Smith"]).team "SS" = 0 := by
  refine ⟨by decide, by decide, by decide, by decide, by decide⟩

theorem roster_archival_witness :
    "Old Player" ∈ (saveRoster [("Old Player", empty_stat_dict)]
      ["Ghost"] ["New Guy", "Ghost"]).2 ∧
    "Ghost" ∉ (saveRoster [("Old Player", empty_stat_dict)]
      ["Ghost"] ["New Guy", "Ghost"]).2 :=
  ⟨((roster_archival [("Old Player", empty_stat_dict)] ["Ghost"] ["New Guy", "Ghost"]
      "Old Player").1 (by decide) (by decide)).1,
    (roster_archival [("Old Player", empty_stat_dict)] ["Ghost"] ["New Guy", "Ghost"]
      "Ghost").2 (by decide) (by decide)⟩

end SprayApp
